import Mathlib

/-!
Verification of the S4C Clic extractor plugin
(`yt_dlp_plugins/extractor/s4c_clic.py`).

The development shallowly embeds the plugin's pure logic:

* a small backtracking regular-expression engine mirroring Python `re`
  semantics on the fragment used by the plugin (ordered alternation,
  greedy character-class quantifiers with backtracking, word boundaries
  with `_` counting as a word character, case-insensitive literals),
* the six title/filename/thumbnail heuristics,
* the Welsh date parsing pipeline (`convert_welsh_date`,
  `datetime.strptime(..., "%Y-%m-%d")`, naive `datetime.timestamp()`,
  `format_date`).  A naive datetime's `timestamp()` converts via the
  process-local timezone, so the embedding takes the local UTC offset
  (in seconds) as an explicit parameter `tz`,
* the episode record builder `_extract_episode_info` and the series
  resolver `S4CClicSeriesIE._extract_video_info`, with the external
  HTTP/manifest collaborators modelled as an explicit environment.

Python falsiness of optional string fields (`None` and `""` both falsy)
is modelled by reading an `Option String` with `.getD ""` and comparing
with `""`.  Whitespace is modelled with `Char.isWhitespace`, which
agrees with Python's `\s` on the ASCII characters that occur in the
plugin's data.
-/

namespace S4C

/-! ## String utilities -/

/-- Digit run to a natural number, as Python `int` on a digit string. -/
def digitsToNat (l : List Char) : Nat :=
  l.foldl (fun n c => n * 10 + (c.toNat - 48)) 0

/-- Maximal trailing digit run of a character list. -/
def trailingDigits (l : List Char) : List Char :=
  (l.reverse.takeWhile Char.isDigit).reverse

/-- Python `str.strip()`: drop leading and trailing whitespace. -/
def pyStrip (l : List Char) : List Char :=
  ((l.dropWhile Char.isWhitespace).reverse.dropWhile Char.isWhitespace).reverse

/-- Python `str.replace(pat, '')` for a non-empty `pat`: delete every
non-overlapping occurrence, scanning left to right.  `fuel` bounds the
recursion; callers pass the length of the subject. -/
def replaceDelete : Nat → List Char → List Char → List Char
  | 0, _, l => l
  | _ + 1, pat, [] => if pat = [] then [] else []
  | fuel + 1, pat, c :: cs =>
    if pat ≠ [] ∧ pat.isPrefixOf (c :: cs) then
      replaceDelete fuel pat ((c :: cs).drop pat.length)
    else
      c :: replaceDelete fuel pat cs

/-- Python `str.split()` (no separator): split on whitespace runs,
discarding empty pieces. -/
def pySplitWsAux : List Char → List Char → List String
  | [], acc => if acc = [] then [] else [String.mk acc.reverse]
  | c :: cs, acc =>
    if c.isWhitespace then
      if acc = [] then pySplitWsAux cs []
      else String.mk acc.reverse :: pySplitWsAux cs []
    else pySplitWsAux cs (c :: acc)

def pySplitWs (s : String) : List String := pySplitWsAux s.toList []

/-! ## Regular-expression engine

A continuation-passing backtracking matcher.  `matchRE r prev l k`
attempts to match `r` at the start of `l`, where `prev` is the
character immediately before `l` in the overall subject (needed for
`\b`).  On each successful way of matching `r`, the continuation `k`
is invoked with the updated previous character and the remaining
suffix; the first continuation success (in Python's backtracking
order: ordered alternation, greedy quantifiers) is returned. -/

inductive RE where
  | eps : RE
  | lit : List Char → Bool → RE        -- literal, case-insensitive flag
  | cls : (Char → Bool) → RE           -- single character class
  | star : (Char → Bool) → RE          -- greedy `[..]*`
  | plus : (Char → Bool) → RE          -- greedy `[..]+`
  | opt : (Char → Bool) → RE           -- `[..]?`
  | bnd : RE                           -- `\b`
  | seq : RE → RE → RE
  | alt : RE → RE → RE

/-- Python word character for `\b`: alphanumeric or underscore. -/
def wordChar (c : Char) : Bool := c.isAlphanum || c = '_'

def optWord : Option Char → Bool
  | some c => wordChar c
  | none => false

def headWord : List Char → Bool
  | [] => false
  | c :: _ => wordChar c

/-- `\b` holds between `prev` and the head of `l`. -/
def atBoundary (prev : Option Char) (l : List Char) : Bool :=
  optWord prev != headWord l

abbrev MatchK := Option Char → List Char → Option (List Char)

/-- Greedy class star: consume as many `p`-characters as possible, then
backtrack one character at a time until the continuation succeeds. -/
def matchStar (p : Char → Bool) : Option Char → List Char → MatchK → Option (List Char)
  | prev, [], k => k prev []
  | prev, c :: cs, k =>
    if p c then
      match matchStar p (some c) cs k with
      | some r => some r
      | none => k prev (c :: cs)
    else k prev (c :: cs)

/-- Literal matching (optionally case-insensitive, Python `re.IGNORECASE`
on ASCII compares case-folded). -/
def litMatch (ci : Bool) : List Char → Option Char → List Char → MatchK → Option (List Char)
  | [], prev, l, k => k prev l
  | p :: ps, _, l, k =>
    match l with
    | [] => none
    | c :: cs =>
      if (if ci then p.toLower = c.toLower else p = c) then
        litMatch ci ps (some c) cs k
      else none

def matchRE : RE → Option Char → List Char → MatchK → Option (List Char)
  | .eps, prev, l, k => k prev l
  | .lit s ci, prev, l, k => litMatch ci s prev l k
  | .cls p, _, l, k =>
    match l with
    | [] => none
    | c :: cs => if p c then k (some c) cs else none
  | .star p, prev, l, k => matchStar p prev l k
  | .plus p, _, l, k =>
    match l with
    | [] => none
    | c :: cs => if p c then matchStar p (some c) cs k else none
  | .opt p, prev, l, k =>
    match l with
    | [] => k prev []
    | c :: cs =>
      if p c then
        match k (some c) cs with
        | some r => some r
        | none => k prev (c :: cs)
      else k prev (c :: cs)
  | .bnd, prev, l, k => if atBoundary prev l then k prev l else none
  | .seq a b, prev, l, k => matchRE a prev l (fun p2 l2 => matchRE b p2 l2 k)
  | .alt a b, prev, l, k =>
    match matchRE a prev l k with
    | some r => some r
    | none => matchRE b prev l k

def topK : MatchK := fun _ rest => some rest

/-- `re.match`: match anchored at the start; returns
`(group 0, remaining suffix)`. -/
def reMatch (r : RE) (l : List Char) : Option (List Char × List Char) :=
  match matchRE r none l topK with
  | some rest => some (l.take (l.length - rest.length), rest)
  | none => none

/-- `re.search`: try each start position left to right, threading the
previous character for `\b`. -/
def searchFrom (r : RE) : Option Char → List Char → Option (List Char × List Char)
  | prev, l =>
    match matchRE r prev l topK with
    | some rest => some (l.take (l.length - rest.length), rest)
    | none =>
      match l with
      | [] => none
      | c :: cs => searchFrom r (some c) cs

def reSearch (r : RE) (l : List Char) : Option (List Char × List Char) :=
  searchFrom r none l

/-! ## Character classes of the plugin's patterns -/

def isDig (c : Char) : Bool := c.isDigit

def wsChar (c : Char) : Bool := c.isWhitespace

/-- `[;:,\-_\.\s]` (also the set of `[-:;,_\.\s]`). -/
def sepChar (c : Char) : Bool :=
  c = ';' || c = ':' || c = ',' || c = '-' || c = '_' || c = '.' || c.isWhitespace

def xChar (c : Char) : Bool := c = 'X' || c = 'x'

def underscoreDash (c : Char) : Bool := c = '_' || c = '-'

def underscoreChar (c : Char) : Bool := c = '_'

/-! ## The plugin's regexes, transliterated -/

/-- `^(?:Pennod|Episode)\s*(\d+)` (case-sensitive, anchored). -/
def epTitleRE : RE :=
  .seq (.alt (.lit "Pennod".toList false) (.lit "Episode".toList false))
    (.seq (.star wsChar) (.plus isDig))

/-- `^(\d+)[;:,\-_\.\s]*` (anchored). -/
def epTextRE : RE := .seq (.plus isDig) (.star sepChar)

/-- `(Cyfres|Season)\s*X?(\d+)` with `re.IGNORECASE`. -/
def seasonCoreRE : RE :=
  .seq (.alt (.lit "Cyfres".toList true) (.lit "Season".toList true))
    (.seq (.star wsChar) (.seq (.opt xChar) (.plus isDig)))

/-- `\s*[-:;,_\.\s]*\s*(Cyfres|Season)\s*X?(\d+)` with `re.IGNORECASE`. -/
def seasonSepRE : RE :=
  .seq (.star wsChar) (.seq (.star sepChar) (.seq (.star wsChar) seasonCoreRE))

/-- `\bE(\d+)\b`. -/
def freeERE : RE :=
  .seq .bnd (.seq (.lit ['E'] false) (.seq (.plus isDig) .bnd))

/-- `[_-](?:pennod|episode)_?(\d+)` with `re.IGNORECASE`. -/
def fileMarkRE : RE :=
  .seq (.cls underscoreDash)
    (.seq (.alt (.lit "pennod".toList true) (.lit "episode".toList true))
      (.seq (.opt underscoreChar) (.plus isDig)))

/-- `_P(\d+)`. -/
def thumbPRE : RE := .seq (.lit "_P".toList false) (.plus isDig)

/-! ## Title heuristics (`S4CClicBaseIE` helpers) -/

/-- `_extract_episode_number_from_title`: anchored
`^(?:Pennod|Episode)\s*(\d+)`; group 1 is the trailing digit run of the
match. -/
def extract_episode_number_from_title (title : String) : Option Nat :=
  match reMatch epTitleRE title.toList with
  | some (m0, _) => some (digitsToNat (trailingDigits m0))
  | none => none

/-- `_extract_episode_number_from_text`: anchored
`^(\d+)[;:,\-_\.\s]*`; on a match returns group 1 and
`re.sub(r'^\d+[;:,\-_\.\s]*', '', text).strip()` (the suffix after the
match, stripped). -/
def extract_episode_number_from_text (text : String) : Option Nat × String :=
  match reMatch epTextRE text.toList with
  | some (_, rest) =>
    (some (digitsToNat (text.toList.takeWhile isDig)), String.mk (pyStrip rest))
  | none => (none, text)

/-- `_extract_season_number_from_title`: search the separator variant
first, then the bare variant; on a match return group 2 and
`title.replace(mobj.group(0), '').strip()`. -/
def extract_season_number_from_title (title : String) : Option Nat × String :=
  match reSearch seasonSepRE title.toList with
  | some (m0, _) =>
    (some (digitsToNat (trailingDigits m0)),
     String.mk (pyStrip (replaceDelete title.toList.length m0 title.toList)))
  | none =>
    match reSearch seasonCoreRE title.toList with
    | some (m0, _) =>
      (some (digitsToNat (trailingDigits m0)),
       String.mk (pyStrip (replaceDelete title.toList.length m0 title.toList)))
    | none => (none, title)

/-- `_extract_episode_number`: search `\bE(\d+)\b`. -/
def extract_episode_number (text : String) : Option Nat :=
  match reSearch freeERE text.toList with
  | some (m0, _) => some (digitsToNat (trailingDigits m0))
  | none => none

/-- `_extract_episode_number_from_filename`: search
`[_-](?:pennod|episode)_?(\d+)` case-insensitively. -/
def extract_episode_number_from_filename (filename : String) : Option Nat :=
  match reSearch fileMarkRE filename.toList with
  | some (m0, _) => some (digitsToNat (trailingDigits m0))
  | none => none

/-- `_extract_episode_number_from_thumbnail`: search `_P(\d+)`. -/
def extract_episode_number_from_thumbnail (thumbnail_url : String) : Option Nat :=
  match reSearch thumbPRE thumbnail_url.toList with
  | some (m0, _) => some (digitsToNat (trailingDigits m0))
  | none => none

/-! ## Errors

Python exceptions escaping the plugin code.  `keyError`/`valueError`
cover the date pipeline (the spec's `MalformedDateError` and
`InvalidDateError`), `indexError` covers `[0]` on an empty list, and
`extractorError` is yt-dlp's `ExtractorError` with its message. -/

inductive PyError where
  | keyError : String → PyError
  | valueError : String → PyError
  | indexError : PyError
  | extractorError : String → PyError
deriving DecidableEq, Repr

/-! ## Date pipeline -/

/-- The module-level `WELSH_MONTHS` table. -/
def WELSH_MONTHS : List (String × String) :=
  [("Ionawr", "01"), ("Chwefror", "02"), ("Mawrth", "03"), ("Ebrill", "04"),
   ("Mai", "05"), ("Mehefin", "06"), ("Gorffennaf", "07"), ("Awst", "08"),
   ("Medi", "09"), ("Hydref", "10"), ("Tachwedd", "11"), ("Rhagfyr", "12")]

/-- `convert_welsh_date`: split on whitespace into exactly three tokens
(`ValueError` on any other count), look the month up in `WELSH_MONTHS`
(`KeyError` when absent), and rebuild `f"{year}-{month}-{day}"`. -/
def convert_welsh_date (welsh_date : String) : Except PyError String :=
  match pySplitWs welsh_date with
  | [day, month_welsh, year] =>
    match WELSH_MONTHS.lookup month_welsh with
    | some month => .ok (year ++ "-" ++ month ++ "-" ++ day)
    | none => .error (.keyError month_welsh)
  | _ => .error (.valueError "not enough values to unpack")

/-- CPython `_strptime` day directive `%d`:
`3[0-1]|[1-2]\d|0[1-9]|[1-9]| [1-9]`, alternatives tried in order.
Returns the parsed day and the unconsumed suffix. -/
def strpDay : List Char → Option (Nat × List Char)
  | '3' :: c :: rest =>
    if c = '0' ∨ c = '1' then some (30 + (c.toNat - 48), rest)
    else some (3, c :: rest)
  | c :: c2 :: rest =>
    if (c = '1' ∨ c = '2') ∧ c2.isDigit then some (digitsToNat [c, c2], rest)
    else if c = '0' ∧ ('1' ≤ c2 ∧ c2 ≤ '9') then some (c2.toNat - 48, rest)
    else if '1' ≤ c ∧ c ≤ '9' then some (c.toNat - 48, c2 :: rest)
    else if c = ' ' ∧ ('1' ≤ c2 ∧ c2 ≤ '9') then some (c2.toNat - 48, rest)
    else none
  | [c] => if '1' ≤ c ∧ c ≤ '9' then some (c.toNat - 48, []) else none
  | [] => none

/-- CPython `_strptime` month directive `%m`: `1[0-2]|0[1-9]|[1-9]`,
alternatives tried in order, each alternative committed only if the
rest of the pattern (`-%d`) matches after it (regex backtracking). -/
def strpMonthDay : List Char → Option (Nat × Nat × List Char)
  | l =>
    (match l with
     | '1' :: c :: '-' :: rest =>
       if c = '0' ∨ c = '1' ∨ c = '2' then
         (strpDay rest).map (fun p => (10 + (c.toNat - 48), p.1, p.2))
       else none
     | _ => none) <|>
    (match l with
     | '0' :: c :: '-' :: rest =>
       if '1' ≤ c ∧ c ≤ '9' then
         (strpDay rest).map (fun p => (c.toNat - 48, p.1, p.2))
       else none
     | _ => none) <|>
    (match l with
     | c :: '-' :: rest =>
       if '1' ≤ c ∧ c ≤ '9' then
         (strpDay rest).map (fun p => (c.toNat - 48, p.1, p.2))
       else none
     | _ => none)

/-- `datetime.strptime(s, "%Y-%m-%d")` up to calendar validation:
`%Y` is exactly four digits, then `-`, `%m`, `-`, `%d`; after the
regex match the whole string must have been consumed
("unconverted data remains" otherwise).  Both failures raise
`ValueError`. -/
def strptimeYmd (s : String) : Except PyError (Nat × Nat × Nat) :=
  match s.toList with
  | c1 :: c2 :: c3 :: c4 :: '-' :: rest =>
    if c1.isDigit ∧ c2.isDigit ∧ c3.isDigit ∧ c4.isDigit then
      match strpMonthDay rest with
      | some (m, d, []) => .ok (digitsToNat [c1, c2, c3, c4], m, d)
      | some (_, _, _ :: _) => .error (.valueError "unconverted data remains")
      | none => .error (.valueError "time data does not match format")
    else .error (.valueError "time data does not match format")
  | _ => .error (.valueError "time data does not match format")

def isLeapYear (y : Nat) : Bool :=
  y % 4 = 0 && (y % 100 != 0 || y % 400 = 0)

def daysInMonth (y m : Nat) : Nat :=
  if m = 2 then (if isLeapYear y then 29 else 28)
  else if m = 4 ∨ m = 6 ∨ m = 9 ∨ m = 11 then 30
  else 31

/-- `datetime` constructor validation (strptime builds a `datetime`):
`MINYEAR = 1`, and the day must fit the month. -/
def datetimeCheck (y m d : Nat) : Except PyError Unit :=
  if y < 1 then .error (.valueError "year is out of range")
  else if daysInMonth y m < d then .error (.valueError "day is out of range for month")
  else .ok ()

/-- Days since 1970-01-01 shifted by 719468 (i.e. days since
0000-03-01), the standard civil-from-date computation used to model
CPython's proleptic-Gregorian date arithmetic.  Defined for `y ≥ 1`
(guaranteed by `datetimeCheck`). -/
def civilShifted (y m d : Nat) : Nat :=
  let yAdj := y - (if m ≤ 2 then 1 else 0)
  let era := yAdj / 400
  let yoe := yAdj % 400
  let mp := if 2 < m then m - 3 else m + 9
  let doy := (153 * mp + 2) / 5 + d - 1
  let doe := yoe * 365 + yoe / 4 - yoe / 100 + doy
  era * 146097 + doe

/-- Days since the Unix epoch of a proleptic-Gregorian date. -/
def civilDays (y m d : Nat) : Int := (civilShifted y m d : Int) - 719468

/-- `parse_welsh_date`, with the process-local UTC offset `tz` (in
seconds) as an explicit parameter: `strptime` yields a naive datetime
and `datetime.timestamp()` interprets a naive datetime in the local
timezone, so the result is the UTC-midnight epoch minus `tz`. -/
def parse_welsh_date (tz : Int) (welsh_date : String) : Except PyError Int := do
  let conv ← convert_welsh_date welsh_date
  let ymd ← strptimeYmd conv
  let _ ← datetimeCheck ymd.1 ymd.2.1 ymd.2.2
  pure (civilDays ymd.1 ymd.2.1 ymd.2.2 * 86400 - tz)

/-- Leap-day correction term of the inverse civil computation. -/
def doeAdj (x : Nat) : Nat := x - x / 1460 + x / 36524 - x / 146096

/-- Inverse civil computation: date (shifted-era year count) from days
since 0000-03-01. -/
def civilFromShifted (n : Nat) : Nat × Nat × Nat :=
  let era := n / 146097
  let doe := n % 146097
  let yoe := doeAdj doe / 365
  let y := yoe + era * 400
  let doy := doe - (365 * yoe + yoe / 4 - yoe / 100)
  let mp := (5 * doy + 2) / 153
  let d := doy - (153 * mp + 2) / 5 + 1
  let m := if mp < 10 then mp + 3 else mp - 9
  (if m ≤ 2 then y + 1 else y, m, d)

/-- Within an era, the shifted year-of-era `yoe` corresponds to the
real calendar year `era * 400 + yoe + 1` for its January/February leap
day; this Boolean states that that real year is a leap year. -/
def leapB (yoe : Nat) : Bool :=
  (yoe % 4 == 3) && (yoe % 100 != 99 || yoe == 399)

def pad2 (n : Nat) : List Char := [Nat.digitChar (n / 10 % 10), Nat.digitChar (n % 10)]

def pad4 (n : Nat) : List Char :=
  [Nat.digitChar (n / 1000 % 10), Nat.digitChar (n / 100 % 10),
   Nat.digitChar (n / 10 % 10), Nat.digitChar (n % 10)]

/-- `format_date`: `datetime.utcfromtimestamp(ts).strftime('%Y%m%d')`.
`utcfromtimestamp` floors to the UTC calendar day and raises for
timestamps outside year range 1..9999; `%Y%m%d` is rendered
zero-padded. -/
def format_date (timestamp : Int) : Except PyError String :=
  let days := Int.fdiv timestamp 86400
  let n := days + 719468
  if n < 0 then .error (.valueError "timestamp out of range")
  else
    let ymd := civilFromShifted n.toNat
    if ymd.1 < 1 ∨ 9999 < ymd.1 then .error (.valueError "timestamp out of range")
    else .ok (String.mk (pad4 ymd.1 ++ pad2 ymd.2.1 ++ pad2 ymd.2.2))

/-! ## Upstream data model

Raw JSON payloads are modelled as typed structures.  An optional string
field standing for a possibly-absent dictionary key is an
`Option String`; Python truthiness tests (`if x:`, `a or b`) read it
with `.getD ""` and compare with `""` since both `None` and `""` are
falsy.  A possibly-absent list is modelled as a plain list, with the
empty list standing for both "absent" and "empty" (both falsy). -/

/-- One raw subtitle descriptor from the player configuration:
key `"3"` is the language code, key `"0"` the VTT URL. -/
structure Subtitle where
  lang : Option String
  url : Option String
deriving DecidableEq, Repr

/-- One normalized subtitle track, `{'url': ..., 'ext': 'vtt'}`. -/
structure SubTrack where
  url : String
  ext : String
deriving DecidableEq, Repr

structure PlayerConfig where
  filename : Option String
  poster : Option String
  subtitles : List Subtitle
deriving DecidableEq, Repr

/-- Per-region streaming-URLs payload (`hls`/`dash`/`fvp`/`dvb`). -/
structure StreamingUrls where
  hls : Option String
  dash : Option String
  fvp : Option String
  dvb : Option String
deriving DecidableEq, Repr

/-- One raw programme payload.  `id` is the key read by the resolvers'
`episode["id"]` (a mandatory subscript in the source). -/
structure UpstreamEpisode where
  id : String
  series_title : Option String
  programme_title : Option String
  full_billing : Option String
  duration : Option Int
  mpg : Option String
  thumbnail_url : Option String
  series_id : Option String
  last_tx : Option String
  clic_aired : Option String
deriving DecidableEq, Repr

structure SeriesData where
  full_prog_details : List UpstreamEpisode
  other_progs_in_series : List UpstreamEpisode
deriving DecidableEq, Repr

/-- Opaque playable-format descriptors, as returned by the external
HLS/DASH manifest resolvers. -/
abbrev StreamFormat := String

/-- The external collaborators (network fetches and manifest parsing),
plus the process-local UTC offset `tz` in seconds used by naive
`datetime.timestamp()`.  A `none` from a fetch models a falsy
(absent/empty) download result. -/
structure FetchEnv where
  tz : Int
  playerConfig : String → Option PlayerConfig
  streamingUrls : String → String → Option StreamingUrls
  m3u8Formats : Option String → String → String → List StreamFormat
  mpdFormats : Option String → String → String → List StreamFormat
  seriesDetails : String → Option SeriesData

/-! ## Streaming formats (`_fetch_and_validate_streaming_urls`) -/

/-- What one region's loop iteration contributes: nothing when the
streaming-urls fetch is falsy (the `continue`), otherwise the four
manifest extractions concatenated in source order. -/
def regionFormats (env : FetchEnv) (filename region : String) : List StreamFormat :=
  match env.streamingUrls region filename with
  | none => []
  | some su =>
    env.m3u8Formats su.hls filename ("hls-" ++ region)
      ++ env.mpdFormats su.dash filename ("dash-" ++ region)
      ++ env.mpdFormats su.fvp filename ("fvp-" ++ region)
      ++ env.mpdFormats su.dvb filename ("dvb-" ++ region)

/-- The loop `for region in ['WW', 'UK']` accumulating `formats`. -/
def fetch_and_validate_streaming_urls (env : FetchEnv) (filename : String)
    (_programme_id : String) : List StreamFormat :=
  ["WW", "UK"].foldl (fun fmts region => fmts ++ regionFormats env filename region) []

/-! ## Subtitle normalization -/

/-- `subtitles.setdefault(lang_code, []).append(track)` on an
insertion-ordered association list: append to an existing language
group in place, otherwise add a new group at the end. -/
def addSub : List (String × List SubTrack) → String → SubTrack → List (String × List SubTrack)
  | [], lang, t => [(lang, [t])]
  | (k, ts) :: rest, lang, t =>
    if k = lang then (k, ts ++ [t]) :: rest else (k, ts) :: addSub rest lang t

/-- The track dictionary appended for one valid descriptor. -/
def subTrackOf (s : Subtitle) : SubTrack := { url := s.url.getD "", ext := "vtt" }

/-- One iteration of the subtitle loop: skip a descriptor whose
language code (key "3") or VTT URL (key "0") is falsy, otherwise add
its track to the language group. -/
def subStep (m : List (String × List SubTrack)) (s : Subtitle) :
    List (String × List SubTrack) :=
  if s.lang.getD "" ≠ "" ∧ s.url.getD "" ≠ "" then
    addSub m (s.lang.getD "") (subTrackOf s)
  else m

/-- The subtitle loop of source lines 167-176. -/
def buildSubtitles (subs : List Subtitle) : List (String × List SubTrack) :=
  subs.foldl subStep []

/-! ## Episode record builder (`_extract_episode_info`) -/

/-- `episode.get('series_title') or episode.get('programme_title', 'No Title')`. -/
def resolvedSeriesTitle (ep : UpstreamEpisode) : String :=
  if ep.series_title.getD "" = "" then ep.programme_title.getD "No Title"
  else ep.series_title.getD ""

/-- Season number and stripped working title (source line 125). -/
def seasonTitle (ep : UpstreamEpisode) : Option Nat × String :=
  extract_season_number_from_title (resolvedSeriesTitle ep)

/-- Source lines 127-129: the anchored `Pennod`/`Episode` marker, then
on failure the leading-digits strip (which rewrites the working
programme title). -/
def epStep12 (pt : String) : Option Nat × String :=
  match extract_episode_number_from_title pt with
  | some n => (some n, pt)
  | none => extract_episode_number_from_text pt

/-- The episode number after the whole fallback chain
(source lines 126-147): each `if episode_number is None:` step in
order, with the final filename step guarded by `and mpg_filename`. -/
def codeEpisodeNumber (ep : UpstreamEpisode) : Option Nat :=
  match (epStep12 (ep.programme_title.getD "")).1 with
  | some n => some n
  | none =>
    match extract_episode_number (ep.mpg.getD "") with
    | some n => some n
    | none =>
      match extract_episode_number_from_thumbnail (ep.thumbnail_url.getD "") with
      | some n => some n
      | none =>
        if ep.mpg.getD "" ≠ "" then
          extract_episode_number_from_filename (ep.mpg.getD "")
        else none

/-- The episode title (source lines 130-134): the possibly
prefix-stripped programme title, falling back to the season-stripped
series title when empty. -/
def codeEpisodeTitle (ep : UpstreamEpisode) : String :=
  if (epStep12 (ep.programme_title.getD "")).2 = "" then (seasonTitle ep).2
  else (epStep12 (ep.programme_title.getD "")).2

/-- The normalized output record (the dictionary of source
lines 196-217). -/
structure CanonicalRecord where
  id : String
  title : String
  description : String
  thumbnail : Option String
  duration : Int
  formats : List StreamFormat
  subtitles : List (String × List SubTrack)
  series : String
  series_id : Option String
  season_number : Nat
  episode : String
  episode_number : Option Nat
  episode_id : String
  timestamp : Option Int
  upload_date : Option String
  release_timestamp : Option Int
  release_date : Option String
  release_year : Option Nat
  modified_timestamp : Option Int
  modified_date : Option String
deriving DecidableEq, Repr

/-- Release fields from `last_tx` (source lines 183-186):
timestamp, `YYYYMMDD` string, and `int(release_date[:4])`. -/
def releaseInfo (tz : Int) (dateStr : String) : Except PyError (Int × String × Nat) := do
  let t ← parse_welsh_date tz dateStr
  let ds ← format_date t
  pure (t, ds, digitsToNat (ds.toList.take 4))

/-- The `if last_tx:` block (source lines 183-186); `none` when the
field is falsy. -/
def relFields (tz : Int) (ep : UpstreamEpisode) :
    Except PyError (Option (Int × String × Nat)) :=
  if ep.last_tx.getD "" ≠ "" then (releaseInfo tz (ep.last_tx.getD "")).map some
  else pure none

/-- The `if clic_aired:` block (source lines 188-190). -/
def mdFields (tz : Int) (ep : UpstreamEpisode) :
    Except PyError (Option (Int × String)) :=
  if ep.clic_aired.getD "" ≠ "" then do
    let t ← parse_welsh_date tz (ep.clic_aired.getD "")
    let ds ← format_date t
    pure (some (t, ds))
  else pure none

/-- `_extract_episode_info`, in source order: pure title/season/episode
heuristics, player-configuration fetch and checks, streaming formats
and check, subtitle normalization, date parsing, record assembly. -/
def extract_episode_info (env : FetchEnv) (episode : UpstreamEpisode)
    (programme_id : String) : Except PyError CanonicalRecord :=
  match env.playerConfig programme_id with
  | none => .error (.extractorError "Unable to fetch player configuration")
  | some config_data =>
    if config_data.filename.getD "" = "" then
      .error (.extractorError "Filename is missing in the player configuration")
    else
      if fetch_and_validate_streaming_urls env (config_data.filename.getD "")
          programme_id = [] then
        .error (.extractorError "Unable to fetch valid streaming URLs")
      else do
        let rel ← relFields env.tz episode
        let md ← mdFields env.tz episode
        pure
          { id := programme_id
            title := (seasonTitle episode).2
            description := episode.full_billing.getD "No Description"
            thumbnail := config_data.poster
            duration := episode.duration.getD 0 * 60
            formats := fetch_and_validate_streaming_urls env
              (config_data.filename.getD "") programme_id
            subtitles := buildSubtitles config_data.subtitles
            series := (seasonTitle episode).2
            series_id := episode.series_id
            season_number := (seasonTitle episode).1.getD 0
            episode := codeEpisodeTitle episode
            episode_number := codeEpisodeNumber episode
            episode_id := programme_id
            timestamp := rel.map (·.1)
            upload_date := rel.map (·.2.1)
            release_timestamp := rel.map (·.1)
            release_date := rel.map (·.2.1)
            release_year := rel.map (·.2.2)
            modified_timestamp := md.map (·.1)
            modified_date := md.map (·.2) }

/-! ## Series identifier resolution (`S4CClicSeriesIE._extract_video_info`) -/

/-- One framework `url_result` reference produced for a playlist
entry. -/
structure ChildRef where
  url : String
  ieKey : String
  videoId : String
deriving DecidableEq, Repr

/-- A resolver's outcome: a single canonical record, or a playlist of
child references with its id and optional title. -/
inductive Resolution where
  | single : CanonicalRecord → Resolution
  | playlist : List ChildRef → String → Option String → Resolution
deriving DecidableEq, Repr

def BASE_URL : String := "https://www.s4c.cymru/clic/"

/-- The playlist entries: one reference per programme across the
primary and "other programmes in series" lists, each pointing at the
non-expanding `S4CClicProgrammeIndividualIE`. -/
def seriesEntries (sd : SeriesData) : List ChildRef :=
  (sd.full_prog_details ++ sd.other_progs_in_series).map fun ep =>
    { url := BASE_URL ++ "programme/" ++ ep.id
      ieKey := "S4CClicProgrammeIndividual"
      videoId := ep.id }

/-- `S4CClicSeriesIE._extract_video_info`: an empty sibling list
collapses to the first primary programme's record; otherwise a
playlist titled with the first primary programme's series title
(`try_get`). -/
def series_extract_video_info (env : FetchEnv) (series_id : String) :
    Except PyError Resolution :=
  match env.seriesDetails series_id with
  | none => .error (.extractorError "Unable to download JSON metadata")
  | some series_data =>
    if series_data.other_progs_in_series = [] then
      match series_data.full_prog_details with
      | [] => .error .indexError
      | ep :: _ => (extract_episode_info env ep series_id).map .single
    else
      .ok (.playlist (seriesEntries series_data) series_id
        (series_data.full_prog_details.head?.bind (·.series_title)))

/-! ## Auxiliary definitions used by the verification -/

/-- The filter predicate corresponding to one language group: the
descriptor is valid (both raw fields truthy) and carries `lang`. -/
def subSel (lang : String) (s : Subtitle) : Bool :=
  (s.lang.getD "" != "") && (s.url.getD "" != "") && (s.lang.getD "" == lang)

/-- Patterns without `\b`. -/
def noBnd : RE → Bool
  | .eps => true
  | .lit _ _ => true
  | .cls _ => true
  | .star _ => true
  | .plus _ => true
  | .opt _ => true
  | .bnd => false
  | .seq a b => noBnd a && noBnd b
  | .alt a b => noBnd a && noBnd b

/-- A continuation that ignores the previous-character argument. -/
def PrevIrrel (k : MatchK) : Prop :=
  ∀ p1 p2 l, k p1 l = k p2 l

/-- Errors of the date pipeline (Python `KeyError`/`ValueError`), as
opposed to yt-dlp `ExtractorError`s. -/
def isDateError : PyError → Prop
  | .keyError _ => True
  | .valueError _ => True
  | .indexError => False
  | .extractorError _ => False

/-- The episode-number precedence chain exactly as the specification
states it (spec side, for comparison with the builder): marker at the
start of the programme title, then leading digit-run strip, then
free-text `E<digits>` in the mpg filename, then `_P<digits>` in the
thumbnail URL, then the filename `pennod`/`episode` marker; absent
when all five fail. -/
def specEpisodeNumberOrder (pt mpg thumb : String) : Option Nat :=
  match extract_episode_number_from_title pt with
  | some n => some n
  | none =>
    match (extract_episode_number_from_text pt).1 with
    | some n => some n
    | none =>
      match extract_episode_number mpg with
      | some n => some n
      | none =>
        match extract_episode_number_from_thumbnail thumb with
        | some n => some n
        | none => extract_episode_number_from_filename mpg

/-! ## Concrete witness data -/

def cfgW : PlayerConfig :=
  { filename := some "asset_fn", poster := some "poster_url", subtitles := [] }

def epW : UpstreamEpisode :=
  { id := "71", series_title := some "Sioe Deg", programme_title := some "Pennod 5"
    full_billing := none, duration := some 30, mpg := some "plainfile"
    thumbnail_url := some "http://x/y.jpg", series_id := some "7"
    last_tx := none, clic_aired := none }

def epW9 : UpstreamEpisode :=
  { id := "72", series_title := some "Sioe Deg", programme_title := none
    full_billing := none, duration := none, mpg := some "plainfile"
    thumbnail_url := some "http://x/y.jpg", series_id := none
    last_tx := none, clic_aired := none }

def sdW : SeriesData :=
  { full_prog_details := [epW], other_progs_in_series := [epW9] }

def suW : StreamingUrls :=
  { hls := some "hls_url", dash := none, fvp := none, dvb := none }

/-- A working environment: the WW region fetch fails, the UK one
yields an HLS manifest resolving to one format. -/
def envW : FetchEnv :=
  { tz := 0
    playerConfig := fun _ => some cfgW
    streamingUrls := fun region _ => if region = "UK" then some suW else none
    m3u8Formats := fun u _ i => match u with | some _ => [i] | none => []
    mpdFormats := fun u _ i => match u with | some _ => [i] | none => []
    seriesDetails := fun _ => some sdW }

/-- Like `envW` but the player-configuration fetch yields nothing. -/
def envNoCfg : FetchEnv :=
  { envW with playerConfig := fun _ => none }

/-!
# Theorems

Each claim of the specification audit is settled below.
-/

/-! ## C2: the free-text `E<digits>` extractor -/

/-- C2 (counterexample): the claim states that the free-text
episode-number extractor returns 12 for `"programme_E12_hd"`.  It does
not: `_` is a regex word character, so `\bE(\d+)\b` has no word
boundary between `_` and `E` and the search fails. -/
theorem c2_counterexample : extract_episode_number "programme_E12_hd" ≠ some 12 := by
  decide

/-- C2 (amended): on `"programme_E12_hd"` the extractor returns absent
(underscore counts as a word character, so the `E12` token has no word
boundaries there); on an input where the token is delimited by
non-word characters, such as `"programme-E12-hd"`, it returns 12. -/
theorem c2_free_text_extractor :
    extract_episode_number "programme_E12_hd" = none ∧
      extract_episode_number "programme-E12-hd" = some 12 := by
  exact ⟨by decide, by decide⟩

/-! ## C3: parsing "15 Ionawr 2021" -/

/-- C3 (counterexample): the claim states the parse of
`"15 Ionawr 2021"` is the epoch of 2021-01-15T00:00:00Z
(1610668800).  But `datetime.timestamp()` on the naive `strptime`
result uses the process-local timezone: with a local UTC offset of
+3600 s (e.g. `TZ=Europe/Paris` in January) the code returns
1610665200, one hour earlier. -/
theorem c3_counterexample :
    parse_welsh_date 3600 "15 Ionawr 2021" = .ok 1610665200 ∧
      (1610665200 : Int) ≠ 1610668800 := by
  exact ⟨rfl, by decide⟩

/-- C3 (amended): parsing `"15 Ionawr 2021"` returns the epoch of
2021-01-15T00:00:00 **local time**, i.e. the UTC-midnight epoch
1610668800 minus the local UTC offset; it equals the claimed UTC value
exactly when the offset is zero. -/
theorem c3_parse_welsh_date_local (tz : Int) :
    parse_welsh_date tz "15 Ionawr 2021" = .ok (1610668800 - tz) := by
  have h : parse_welsh_date tz "15 Ionawr 2021"
      = .ok (civilDays 2021 1 15 * 86400 - tz) := rfl
  have h2 : civilDays 2021 1 15 * 86400 = (1610668800 : Int) := by decide
  rw [h, h2]

/-! ## C10: subtitle normalization -/

theorem lookup_addSub (m : List (String × List SubTrack)) (lang lang2 : String)
    (t : SubTrack) :
    (addSub m lang2 t).lookup lang =
      if lang = lang2 then some ((m.lookup lang).getD [] ++ [t])
      else m.lookup lang := by
  induction m with
  | nil =>
    by_cases h : lang = lang2 <;>
      simp [addSub, List.lookup, h, show (lang == lang2) = decide (lang = lang2) from rfl]
  | cons p rest ih =>
    obtain ⟨k, ts⟩ := p
    by_cases hk : k = lang2
    · subst hk
      by_cases hl : lang = k <;>
        simp [addSub, List.lookup, hl,
          show (lang == k) = decide (lang = k) from rfl]
    · by_cases hl : lang = k
      · subst hl
        simp [addSub, List.lookup, Ne.symm hk, hk,
          show (lang == lang) = decide (lang = lang) from rfl]
      · simp [addSub, List.lookup, hk, hl, ih,
          show (lang == k) = decide (lang = k) from rfl]

theorem buildSubtitles_foldl (subs : List Subtitle)
    (m : List (String × List SubTrack)) (lang : String) :
    (subs.foldl subStep m).lookup lang =
      (if (m.lookup lang).isSome ∨ (subs.filter (subSel lang)).map subTrackOf ≠ [] then
        some ((m.lookup lang).getD [] ++ (subs.filter (subSel lang)).map subTrackOf)
       else none) := by
  induction subs generalizing m with
  | nil => cases h : m.lookup lang <;> simp [h]
  | cons s rest ih =>
    simp only [List.foldl_cons]
    rw [ih, List.filter_cons]
    by_cases hv : s.lang.getD "" ≠ "" ∧ s.url.getD "" ≠ ""
    · by_cases hl : lang = s.lang.getD ""
      · have hP : subSel lang s = true := by
          simp [subSel, bne_iff_ne, hl, hv.1, hv.2]
        have hstep : (subStep m s).lookup lang
            = some ((m.lookup lang).getD [] ++ [subTrackOf s]) := by
          simp only [subStep, if_pos hv]
          rw [lookup_addSub, if_pos hl]
        rw [hstep, hP]
        simp [List.append_assoc]
      · have hP : subSel lang s = false := by
          simp [subSel, show ¬s.lang.getD "" = lang from fun hc => hl hc.symm]
        have hstep : (subStep m s).lookup lang = m.lookup lang := by
          simp only [subStep, if_pos hv]
          rw [lookup_addSub, if_neg hl]
        rw [hstep, hP]
        simp
    · have hP : subSel lang s = false := by
        rcases not_and_or.mp hv with h1 | h1 <;>
          simp [subSel, bne_iff_ne, not_ne_iff.mp h1]
      have hstep : subStep m s = m := by simp [subStep, hv]
      rw [hstep, hP]
      simp

/-- C10: normalizing the subtitle descriptors skips every descriptor
whose language-code field (key "3") or VTT URL field (key "0") is
missing/falsy, and groups the remaining ones by language code: for
every language, the resulting group is exactly the ordered list of
`{url, ext := "vtt"}` tracks of the valid descriptors carrying that
language code (and the language is absent from the mapping when no
valid descriptor carries it). -/
theorem c10_subtitle_grouping (subs : List Subtitle) (lang : String) :
    (buildSubtitles subs).lookup lang =
      (if (subs.filter (subSel lang)).map subTrackOf = [] then none
       else some ((subs.filter (subSel lang)).map subTrackOf)) := by
  have h := buildSubtitles_foldl subs [] lang
  by_cases he : (subs.filter (subSel lang)).map subTrackOf = [] <;>
    simpa [buildSubtitles, List.lookup, he] using h


/-! ## C8: season extraction

The universal "no marker" part needs a bridge: if the bare
`(Cyfres|Season)\s*X?(\d+)` search finds nothing, the separator
variant (whose extra prefix parts are all `*`-quantified) cannot match
either.  The lemmas below track that the matcher only ever invokes its
continuation on suffixes of the subject, and that matching a
boundary-free pattern does not depend on the previous character. -/

theorem litMatch_prev_irrel (ci : Bool) (s : List Char) (p1 p2 : Option Char)
    (l : List Char) (k : MatchK) (hk : PrevIrrel k) :
    litMatch ci s p1 l k = litMatch ci s p2 l k := by
  cases s with
  | nil => exact hk p1 p2 l
  | cons c cs => rfl

theorem matchStar_prev_irrel (p : Char → Bool) (l : List Char) (p1 p2 : Option Char)
    (k : MatchK) (hk : PrevIrrel k) :
    matchStar p p1 l k = matchStar p p2 l k := by
  cases l with
  | nil => exact hk p1 p2 []
  | cons c cs =>
    simp only [matchStar]
    by_cases hc : p c
    · rw [if_pos hc, if_pos hc]
      cases matchStar p (some c) cs k
      · exact hk p1 p2 (c :: cs)
      · rfl
    · rw [if_neg hc, if_neg hc]
      exact hk p1 p2 (c :: cs)

theorem matchRE_prev_irrel (r : RE) (hb : noBnd r = true) (p1 p2 : Option Char)
    (l : List Char) (k : MatchK) (hk : PrevIrrel k) :
    matchRE r p1 l k = matchRE r p2 l k := by
  induction r generalizing p1 p2 l k with
  | eps => exact hk p1 p2 l
  | lit s ci => exact litMatch_prev_irrel ci s p1 p2 l k hk
  | cls p => rfl
  | star p => exact matchStar_prev_irrel p l p1 p2 k hk
  | plus p => rfl
  | opt p =>
    cases l with
    | nil => exact hk p1 p2 []
    | cons c cs =>
      simp only [matchRE]
      by_cases hc : p c
      · rw [if_pos hc, if_pos hc]
        cases k (some c) cs
        · exact hk p1 p2 (c :: cs)
        · rfl
      · rw [if_neg hc, if_neg hc]
        exact hk p1 p2 (c :: cs)
  | bnd => exact absurd hb (by simp [noBnd])
  | seq a b iha ihb =>
    simp only [matchRE]
    exact iha (by simp [noBnd] at hb; exact hb.1) p1 p2 l _
      (fun q1 q2 l2 => ihb (by simp [noBnd] at hb; exact hb.2) q1 q2 l2 k hk)
  | alt a b iha ihb =>
    simp only [matchRE]
    rw [iha (by simp [noBnd] at hb; exact hb.1) p1 p2 l k hk,
      ihb (by simp [noBnd] at hb; exact hb.2) p1 p2 l k hk]

/-- A failed search means the pattern fails at every suffix (for a
boundary-free pattern the previous character is irrelevant). -/
theorem searchFrom_none_all (r : RE) (hb : noBnd r = true) (prev : Option Char)
    (l : List Char) (h : searchFrom r prev l = none) :
    ∀ l2 : List Char, l2 <:+ l → ∀ pr : Option Char, matchRE r pr l2 topK = none := by
  induction l generalizing prev with
  | nil =>
    intro l2 hl2 pr
    rw [List.suffix_nil.mp hl2]
    have h0 : matchRE r prev [] topK = none := by
      by_contra hc
      rw [searchFrom] at h
      cases hm : matchRE r prev [] topK with
      | none => exact hc hm
      | some rest => rw [hm] at h; exact Option.noConfusion h
    rw [matchRE_prev_irrel r hb pr prev [] topK (fun _ _ _ => rfl)]
    exact h0
  | cons c cs ih =>
    intro l2 hl2 pr
    rw [searchFrom] at h
    cases hm : matchRE r prev (c :: cs) topK with
    | some rest => rw [hm] at h; exact Option.noConfusion h
    | none =>
      rw [hm] at h
      rcases List.suffix_cons_iff.mp hl2 with heq | hsuf
      · rw [heq, matchRE_prev_irrel r hb pr prev (c :: cs) topK (fun _ _ _ => rfl)]
        exact hm
      · exact ih (some c) h l2 hsuf pr

/-- Conversely, a pattern failing at every suffix makes the search
fail. -/
theorem searchFrom_none_intro (r : RE) (prev : Option Char) (l : List Char)
    (h : ∀ l2 : List Char, l2 <:+ l → ∀ pr : Option Char, matchRE r pr l2 topK = none) :
    searchFrom r prev l = none := by
  induction l generalizing prev with
  | nil =>
    rw [searchFrom, h [] (List.suffix_refl []) prev]
  | cons c cs ih =>
    rw [searchFrom, h (c :: cs) (List.suffix_refl _) prev]
    exact ih (some c) (fun l2 hl2 pr => h l2 (hl2.trans (List.suffix_cons c cs)) pr)

/-- A greedy star fails when its continuation fails on every suffix. -/
theorem matchStar_none_of (p : Char → Bool) (prev : Option Char) (l : List Char)
    (k : MatchK) (h : ∀ pr : Option Char, ∀ l2 : List Char, l2 <:+ l → k pr l2 = none) :
    matchStar p prev l k = none := by
  induction l generalizing prev with
  | nil => exact h prev [] (List.suffix_refl [])
  | cons c cs ih =>
    simp only [matchStar]
    by_cases hc : p c
    · rw [if_pos hc,
        ih (some c) (fun pr l2 hl2 => h pr l2 (hl2.trans (List.suffix_cons c cs)))]
      exact h prev (c :: cs) (List.suffix_refl _)
    · rw [if_neg hc]
      exact h prev (c :: cs) (List.suffix_refl _)

/-- If the bare season pattern fails at every suffix, so does the
separator-prefixed variant. -/
theorem seasonSep_none_of_core (prev : Option Char) (l : List Char)
    (h : ∀ l2 : List Char, l2 <:+ l → ∀ pr : Option Char,
      matchRE seasonCoreRE pr l2 topK = none) :
    matchRE seasonSepRE prev l topK = none := by
  show matchStar wsChar prev l _ = none
  refine matchStar_none_of _ _ _ _ (fun pr1 l1 hl1 => ?_)
  show matchStar sepChar pr1 l1 _ = none
  refine matchStar_none_of _ _ _ _ (fun pr2 l2 hl2 => ?_)
  show matchStar wsChar pr2 l2 _ = none
  refine matchStar_none_of _ _ _ _ (fun pr3 l3 hl3 => ?_)
  exact h l3 ((hl3.trans hl2).trans hl1) pr3

/-- Bridge: no bare-pattern match anywhere implies the first
(separator) season regex finds nothing either. -/
theorem seasonSep_search_none (l : List Char)
    (h : reSearch seasonCoreRE l = none) : reSearch seasonSepRE l = none := by
  refine searchFrom_none_intro _ _ _ (fun l2 hl2 pr => ?_)
  exact seasonSep_none_of_core pr l2
    (fun l3 hl3 pr2 => searchFrom_none_all seasonCoreRE rfl none l h l3 (hl3.trans hl2) pr2)

/-- C8: the season extractor returns season 23 and stripped title
`"Rownd a Rownd"` for `"Rownd a Rownd - Cyfres 23"`; and for every
title in which the (case-insensitive) `Cyfres`/`Season` marker pattern
`(Cyfres|Season)\s*X?(\d+)` matches nowhere, it returns the title
unchanged with an absent season number. -/
theorem c8_season_extractor :
    extract_season_number_from_title "Rownd a Rownd - Cyfres 23"
        = (some 23, "Rownd a Rownd") ∧
      ∀ title : String, reSearch seasonCoreRE title.toList = none →
        extract_season_number_from_title title = (none, title) := by
  constructor
  · decide
  · intro title h
    have hsep : reSearch seasonSepRE title.toList = none := seasonSep_search_none _ h
    simp only [extract_season_number_from_title, reSearch] at *
    rw [hsep, h]

/-- C8 witness: a concrete markerless title passes through unchanged. -/
theorem c8_witness :
    reSearch seasonCoreRE "Y Llais".toList = none ∧
      extract_season_number_from_title "Y Llais" = (none, "Y Llais") :=
  ⟨by decide, c8_season_extractor.2 "Y Llais" (by decide)⟩


/-! ## Builder plumbing lemmas -/

theorem exceptBind_error {α β : Type} (e : PyError) (f : α → Except PyError β) :
    (Except.error e >>= f) = Except.error e := rfl

theorem exceptBind_ok {α β : Type} (a : α) (f : α → Except PyError β) :
    (Except.ok a >>= f) = f a := rfl

theorem convert_welsh_date_error (s : String) (e : PyError)
    (h : convert_welsh_date s = .error e) : isDateError e := by
  unfold convert_welsh_date at h
  split at h
  · split at h
    · exact Except.noConfusion h
    · injection h with h2
      rw [← h2]; trivial
  · injection h with h2
    rw [← h2]; trivial

theorem strptimeYmd_error (s : String) (e : PyError)
    (h : strptimeYmd s = .error e) : isDateError e := by
  unfold strptimeYmd at h
  split at h
  · split at h
    · split at h
      · exact Except.noConfusion h
      · injection h with h2; rw [← h2]; trivial
      · injection h with h2; rw [← h2]; trivial
    · injection h with h2; rw [← h2]; trivial
  · injection h with h2; rw [← h2]; trivial

theorem datetimeCheck_error (y m d : Nat) (e : PyError)
    (h : datetimeCheck y m d = .error e) : isDateError e := by
  unfold datetimeCheck at h
  split at h
  · injection h with h2; rw [← h2]; trivial
  · split at h
    · injection h with h2; rw [← h2]; trivial
    · exact Except.noConfusion h

theorem format_date_error (t : Int) (e : PyError)
    (h : format_date t = .error e) : isDateError e := by
  simp only [format_date] at h
  split at h
  · injection h with h2; rw [← h2]; trivial
  · split at h
    · injection h with h2; rw [← h2]; trivial
    · exact Except.noConfusion h

theorem parse_welsh_date_error (tz : Int) (s : String) (e : PyError)
    (h : parse_welsh_date tz s = .error e) : isDateError e := by
  unfold parse_welsh_date at h
  cases hc : convert_welsh_date s with
  | error e1 =>
    rw [hc, exceptBind_error] at h
    injection h with h2
    rw [← h2]
    exact convert_welsh_date_error s e1 hc
  | ok conv =>
    rw [hc, exceptBind_ok] at h
    cases hs : strptimeYmd conv with
    | error e1 =>
      rw [hs, exceptBind_error] at h
      injection h with h2
      rw [← h2]
      exact strptimeYmd_error conv e1 hs
    | ok ymd =>
      rw [hs, exceptBind_ok] at h
      cases hd : datetimeCheck ymd.1 ymd.2.1 ymd.2.2 with
      | error e1 =>
        rw [hd, exceptBind_error] at h
        injection h with h2
        rw [← h2]
        exact datetimeCheck_error ymd.1 ymd.2.1 ymd.2.2 e1 hd
      | ok u =>
        rw [hd, exceptBind_ok] at h
        exact Except.noConfusion h

theorem releaseInfo_error (tz : Int) (s : String) (e : PyError)
    (h : releaseInfo tz s = .error e) : isDateError e := by
  unfold releaseInfo at h
  cases hp : parse_welsh_date tz s with
  | error e1 =>
    rw [hp, exceptBind_error] at h
    injection h with h2
    rw [← h2]
    exact parse_welsh_date_error tz s e1 hp
  | ok t =>
    rw [hp, exceptBind_ok] at h
    cases hf : format_date t with
    | error e1 =>
      rw [hf, exceptBind_error] at h
      injection h with h2
      rw [← h2]
      exact format_date_error t e1 hf
    | ok ds =>
      rw [hf, exceptBind_ok] at h
      exact Except.noConfusion h

theorem relFields_error (tz : Int) (ep : UpstreamEpisode) (e : PyError)
    (h : relFields tz ep = .error e) : isDateError e := by
  unfold relFields at h
  split at h
  · cases hr : releaseInfo tz (ep.last_tx.getD "") with
    | error e1 =>
      rw [hr] at h
      simp only [Except.map] at h
      injection h with h2
      rw [← h2]
      exact releaseInfo_error _ _ e1 hr
    | ok v =>
      rw [hr] at h
      simp only [Except.map] at h
      exact Except.noConfusion h
  · exact Except.noConfusion h

theorem mdFields_error (tz : Int) (ep : UpstreamEpisode) (e : PyError)
    (h : mdFields tz ep = .error e) : isDateError e := by
  unfold mdFields at h
  split at h
  · cases hp : parse_welsh_date tz (ep.clic_aired.getD "") with
    | error e1 =>
      rw [hp, exceptBind_error] at h
      injection h with h2
      rw [← h2]
      exact parse_welsh_date_error _ _ e1 hp
    | ok t =>
      rw [hp, exceptBind_ok] at h
      cases hf : format_date t with
      | error e1 =>
        rw [hf, exceptBind_error] at h
        injection h with h2
        rw [← h2]
        exact format_date_error t e1 hf
      | ok ds =>
        rw [hf, exceptBind_ok] at h
        exact Except.noConfusion h
  · exact Except.noConfusion h

/-- On success the record's heuristic fields are exactly the pure
computations of the source's lines 120-147. -/
theorem extract_episode_info_ok_fields (env : FetchEnv) (ep : UpstreamEpisode)
    (pid : String) (rec : CanonicalRecord)
    (h : extract_episode_info env ep pid = .ok rec) :
    rec.season_number = (seasonTitle ep).1.getD 0 ∧
      rec.episode_number = codeEpisodeNumber ep ∧
      rec.episode = codeEpisodeTitle ep ∧
      rec.title = (seasonTitle ep).2 := by
  unfold extract_episode_info at h
  split at h
  · exact Except.noConfusion h
  · split at h
    · exact Except.noConfusion h
    · split at h
      · exact Except.noConfusion h
      · cases hrel : relFields env.tz ep with
        | error e1 =>
          rw [hrel, exceptBind_error] at h
          exact Except.noConfusion h
        | ok rel =>
          rw [hrel, exceptBind_ok] at h
          cases hmd : mdFields env.tz ep with
          | error e1 =>
            rw [hmd, exceptBind_error] at h
            exact Except.noConfusion h
          | ok md =>
            rw [hmd, exceptBind_ok] at h
            injection h with h2
            rw [← h2]
            exact ⟨rfl, rfl, rfl, rfl⟩

/-- Past the format check, the builder either succeeds or fails with a
date error, never with an `ExtractorError`. -/
theorem extract_episode_info_tail (env : FetchEnv) (ep : UpstreamEpisode)
    (pid : String) (cfg : PlayerConfig)
    (h1 : env.playerConfig pid = some cfg) (h2 : ¬cfg.filename.getD "" = "")
    (h3 : ¬fetch_and_validate_streaming_urls env (cfg.filename.getD "") pid = []) :
    (∃ rec, extract_episode_info env ep pid = .ok rec) ∨
      (∃ e, extract_episode_info env ep pid = .error e ∧ isDateError e) := by
  have hshape : extract_episode_info env ep pid = (do
      let rel ← relFields env.tz ep
      let md ← mdFields env.tz ep
      pure
        { id := pid
          title := (seasonTitle ep).2
          description := ep.full_billing.getD "No Description"
          thumbnail := cfg.poster
          duration := ep.duration.getD 0 * 60
          formats := fetch_and_validate_streaming_urls env (cfg.filename.getD "") pid
          subtitles := buildSubtitles cfg.subtitles
          series := (seasonTitle ep).2
          series_id := ep.series_id
          season_number := (seasonTitle ep).1.getD 0
          episode := codeEpisodeTitle ep
          episode_number := codeEpisodeNumber ep
          episode_id := pid
          timestamp := rel.map (·.1)
          upload_date := rel.map (·.2.1)
          release_timestamp := rel.map (·.1)
          release_date := rel.map (·.2.1)
          release_year := rel.map (·.2.2)
          modified_timestamp := md.map (·.1)
          modified_date := md.map (·.2) } : Except PyError CanonicalRecord) := by
    unfold extract_episode_info
    rw [h1]
    simp only [if_neg h2, if_neg h3]
  rw [hshape]
  cases hrel : relFields env.tz ep with
  | error e1 =>
    rw [exceptBind_error]
    exact Or.inr ⟨e1, rfl, relFields_error _ _ e1 hrel⟩
  | ok rel =>
    rw [exceptBind_ok]
    cases hmd : mdFields env.tz ep with
    | error e1 =>
      rw [exceptBind_error]
      exact Or.inr ⟨e1, rfl, mdFields_error _ _ e1 hmd⟩
    | ok md =>
      rw [exceptBind_ok]
      exact Or.inl ⟨_, rfl⟩


/-! ## C6: UpstreamFetchError conditions -/

/-- C6: building an episode record fails with an upstream-fetch
`ExtractorError` (one of the two player-configuration messages)
exactly when the player-configuration fetch returns no data or the
returned configuration lacks a non-empty `filename`; and in that case
no record is produced. -/
theorem c6_upstream_fetch_error (env : FetchEnv) (ep : UpstreamEpisode) (pid : String) :
    ((env.playerConfig pid = none ∨
        ((env.playerConfig pid).bind PlayerConfig.filename).getD "" = "") ↔
      ∃ msg, extract_episode_info env ep pid = .error (.extractorError msg) ∧
        (msg = "Unable to fetch player configuration" ∨
          msg = "Filename is missing in the player configuration")) ∧
    ((env.playerConfig pid = none ∨
        ((env.playerConfig pid).bind PlayerConfig.filename).getD "" = "") →
      ¬∃ rec, extract_episode_info env ep pid = .ok rec) := by
  cases hc : env.playerConfig pid with
  | none =>
    have hx : extract_episode_info env ep pid
        = .error (.extractorError "Unable to fetch player configuration") := by
      unfold extract_episode_info
      simp only [hc]
    refine ⟨⟨fun _ => ⟨_, hx, Or.inl rfl⟩, fun _ => Or.inl rfl⟩, ?_⟩
    rintro _ ⟨rec, hrec⟩
    rw [hx] at hrec
    exact Except.noConfusion hrec
  | some cfg =>
    by_cases hf : cfg.filename.getD "" = ""
    · have hx : extract_episode_info env ep pid
          = .error (.extractorError "Filename is missing in the player configuration") := by
        unfold extract_episode_info
        simp only [hc]
        rw [if_pos hf]
      refine ⟨⟨fun _ => ⟨_, hx, Or.inr rfl⟩, fun _ => Or.inr hf⟩, ?_⟩
      rintro _ ⟨rec, hrec⟩
      rw [hx] at hrec
      exact Except.noConfusion hrec
    · have hcond : ¬(some cfg = none ∨
          ((some cfg).bind PlayerConfig.filename).getD "" = "") := by
        rintro (h1 | h2)
        · exact Option.noConfusion h1
        · exact hf h2
      refine ⟨⟨fun hcd => absurd hcd hcond, ?_⟩, fun hcd => absurd hcd hcond⟩
      rintro ⟨msg, hmsg, hm⟩
      exfalso
      by_cases hfm : fetch_and_validate_streaming_urls env (cfg.filename.getD "") pid = []
      · have hx : extract_episode_info env ep pid
            = .error (.extractorError "Unable to fetch valid streaming URLs") := by
          unfold extract_episode_info
          simp only [hc]
          rw [if_neg hf, if_pos hfm]
        rw [hx] at hmsg
        injection hmsg with h2
        injection h2 with h3
        rcases hm with hm | hm <;> (rw [← h3] at hm; exact absurd hm (by decide))
      · rcases extract_episode_info_tail env ep pid cfg hc hf hfm with
          ⟨rec, hrec⟩ | ⟨e, he, hde⟩
        · rw [hrec] at hmsg
          exact Except.noConfusion hmsg
        · rw [he] at hmsg
          injection hmsg with h2
          rw [h2] at hde
          exact hde

/-- C6 witness: with a failing player-configuration fetch the claimed
upstream-fetch error is produced. -/
theorem c6_witness :
    ∃ msg, extract_episode_info envNoCfg epW "9" = .error (.extractorError msg) ∧
      (msg = "Unable to fetch player configuration" ∨
        msg = "Filename is missing in the player configuration") :=
  (c6_upstream_fetch_error envNoCfg epW "9").1.mp (Or.inl rfl)

/-! ## C7: StreamingUnavailableError conditions -/

/-- C7: once the player configuration resolved with a non-empty
filename, record building fails with the streaming `ExtractorError`
exactly when the format list collected over all regions is empty;
the collected list is the concatenation of the per-region
contributions (WW then UK), and a failed WW fetch merely skips that
region, leaving UK's contribution. -/
theorem c7_streaming_unavailable (env : FetchEnv) (ep : UpstreamEpisode) (pid : String)
    (cfg : PlayerConfig) (h1 : env.playerConfig pid = some cfg)
    (h2 : ¬cfg.filename.getD "" = "") :
    (extract_episode_info env ep pid
        = .error (.extractorError "Unable to fetch valid streaming URLs") ↔
      fetch_and_validate_streaming_urls env (cfg.filename.getD "") pid = []) ∧
    fetch_and_validate_streaming_urls env (cfg.filename.getD "") pid =
      regionFormats env (cfg.filename.getD "") "WW" ++
        regionFormats env (cfg.filename.getD "") "UK" ∧
    (env.streamingUrls "WW" (cfg.filename.getD "") = none →
      fetch_and_validate_streaming_urls env (cfg.filename.getD "") pid =
        regionFormats env (cfg.filename.getD "") "UK") := by
  have hcat : fetch_and_validate_streaming_urls env (cfg.filename.getD "") pid =
      regionFormats env (cfg.filename.getD "") "WW" ++
        regionFormats env (cfg.filename.getD "") "UK" := by
    simp [fetch_and_validate_streaming_urls]
  refine ⟨⟨?_, ?_⟩, hcat, ?_⟩
  · intro hx
    by_contra hfm
    rcases extract_episode_info_tail env ep pid cfg h1 h2 hfm with
      ⟨rec, hrec⟩ | ⟨e, he, hde⟩
    · rw [hrec] at hx
      exact Except.noConfusion hx
    · rw [he] at hx
      injection hx with h3
      rw [h3] at hde
      exact hde
  · intro hfm
    unfold extract_episode_info
    simp only [h1]
    rw [if_neg h2, if_pos hfm]
  · intro hww
    rw [hcat]
    have hz : regionFormats env (cfg.filename.getD "") "WW" = [] := by
      unfold regionFormats
      rw [hww]
    rw [hz, List.nil_append]

/-- C7 witness: in `envW` the WW fetch fails, UK yields one format, so
there is no streaming error. -/
theorem c7_witness :
    (extract_episode_info envW epW "71"
        = .error (.extractorError "Unable to fetch valid streaming URLs") ↔
      fetch_and_validate_streaming_urls envW "asset_fn" "71" = []) ∧
    fetch_and_validate_streaming_urls envW "asset_fn" "71" =
      regionFormats envW "asset_fn" "WW" ++ regionFormats envW "asset_fn" "UK" ∧
    (envW.streamingUrls "WW" "asset_fn" = none →
      fetch_and_validate_streaming_urls envW "asset_fn" "71" =
        regionFormats envW "asset_fn" "UK") :=
  c7_streaming_unavailable envW epW "71" cfgW rfl (by decide)

/-! ## C5: series-identifier resolution -/

/-- C5: with an empty "other programmes in series" list the series
resolver returns the single canonical-record result built from the
first primary programme (not a playlist); otherwise it returns a
playlist whose entries are one `S4CClicProgrammeIndividual` reference
per programme across both lists. -/
theorem c5_series_resolution (env : FetchEnv) (sd : SeriesData) (sid : String)
    (hsd : env.seriesDetails sid = some sd) :
    (sd.other_progs_in_series = [] →
      ∀ ep rest, sd.full_prog_details = ep :: rest →
        series_extract_video_info env sid = (extract_episode_info env ep sid).map .single) ∧
    (sd.other_progs_in_series ≠ [] →
      series_extract_video_info env sid =
          .ok (.playlist (seriesEntries sd) sid
            (sd.full_prog_details.head?.bind (·.series_title))) ∧
        (seriesEntries sd).length =
          sd.full_prog_details.length + sd.other_progs_in_series.length ∧
        ∀ e ∈ seriesEntries sd, e.ieKey = "S4CClicProgrammeIndividual") := by
  constructor
  · intro hother ep rest hfull
    unfold series_extract_video_info
    simp only [hsd]
    rw [if_pos hother]
    simp only [hfull]
  · intro hother
    refine ⟨?_, ?_, ?_⟩
    · unfold series_extract_video_info
      simp only [hsd]
      rw [if_neg hother]
    · simp [seriesEntries]
    · intro e he
      simp only [seriesEntries, List.mem_map] at he
      obtain ⟨ep2, _, heq⟩ := he
      rw [← heq]

/-- C5 witness: a series payload with one primary and one sibling
programme expands to a 2-entry playlist of individual references. -/
theorem c5_witness :
    series_extract_video_info envW "9" =
        .ok (.playlist (seriesEntries sdW) "9"
          (sdW.full_prog_details.head?.bind (·.series_title))) ∧
      (seriesEntries sdW).length = 2 ∧
      ∀ e ∈ seriesEntries sdW, e.ieKey = "S4CClicProgrammeIndividual" := by
  obtain ⟨hh, hlen, hie⟩ := (c5_series_resolution envW sdW "9" rfl).2 (by decide)
  exact ⟨hh, by simpa [sdW] using hlen, hie⟩


/-! ## C1: episode-number precedence chain -/

/-- The builder's sequential fallback equals the specification's
short-circuiting chain; the only syntactic difference is the
`and mpg_filename` guard on the final step, vacuous because the
filename extractor fails on the empty string. -/
theorem codeEpisodeNumber_eq_spec (ep : UpstreamEpisode) :
    codeEpisodeNumber ep =
      specEpisodeNumberOrder (ep.programme_title.getD "") (ep.mpg.getD "")
        (ep.thumbnail_url.getD "") := by
  unfold codeEpisodeNumber specEpisodeNumberOrder epStep12
  cases h1 : extract_episode_number_from_title (ep.programme_title.getD "")
  · cases h2 : (extract_episode_number_from_text (ep.programme_title.getD "")).1
    · cases h3 : extract_episode_number (ep.mpg.getD "")
      · cases h4 : extract_episode_number_from_thumbnail (ep.thumbnail_url.getD "")
        · by_cases h5 : ep.mpg.getD "" = ""
          · simp [h5, show extract_episode_number_from_filename "" = none from rfl]
          · simp [h5]
        · simp [h4]
      · simp [h3]
    · simp [h2]
  · simp [h1]

/-- C1: when the builder succeeds, the record's episode number is
resolved by the exact five-source short-circuiting chain of the claim
(programme-title marker, leading digit strip, filename `E<digits>`,
thumbnail `_P<digits>`, filename `pennod`/`episode` marker), is null
when all five fail, and a successful step-2 strip rewrites the working
episode title. -/
theorem c1_episode_number_precedence (env : FetchEnv) (ep : UpstreamEpisode)
    (pid : String) (rec : CanonicalRecord)
    (h : extract_episode_info env ep pid = .ok rec) :
    rec.episode_number =
        specEpisodeNumberOrder (ep.programme_title.getD "") (ep.mpg.getD "")
          (ep.thumbnail_url.getD "") ∧
      (specEpisodeNumberOrder (ep.programme_title.getD "") (ep.mpg.getD "")
          (ep.thumbnail_url.getD "") = none → rec.episode_number = none) ∧
      (∀ n st, extract_episode_number_from_title (ep.programme_title.getD "") = none →
        extract_episode_number_from_text (ep.programme_title.getD "") = (some n, st) →
        rec.episode = (if st = "" then (seasonTitle ep).2 else st)) := by
  obtain ⟨_, hn, ht, _⟩ := extract_episode_info_ok_fields env ep pid rec h
  refine ⟨?_, ?_, ?_⟩
  · rw [hn, codeEpisodeNumber_eq_spec]
  · intro hnone
    rw [hn, codeEpisodeNumber_eq_spec, hnone]
  · intro n st h1 h2
    rw [ht]
    simp [codeEpisodeTitle, epStep12, h1, h2]

/-- C1 witness: a successful concrete build resolving the episode
number from the programme-title marker. -/
theorem c1_witness :
    ∃ rec, extract_episode_info envW epW "71" = Except.ok rec ∧
      rec.episode_number =
        specEpisodeNumberOrder "Pennod 5" "plainfile" "http://x/y.jpg" := by
  refine ⟨_, rfl, ?_⟩
  exact (c1_episode_number_precedence envW epW "71" _ rfl).1

/-! ## C9: all-defaults record -/

/-- C9: for an episode with an absent/empty programme title, no
recognizable episode markers in the mpg filename or thumbnail URL, and
no season marker in the resolved series title, a successfully built
record has season number 0 and an absent episode number. -/
theorem c9_default_numbers (env : FetchEnv) (ep : UpstreamEpisode) (pid : String)
    (rec : CanonicalRecord)
    (hpt : ep.programme_title.getD "" = "")
    (hm : extract_episode_number (ep.mpg.getD "") = none)
    (hth : extract_episode_number_from_thumbnail (ep.thumbnail_url.getD "") = none)
    (hfn : extract_episode_number_from_filename (ep.mpg.getD "") = none)
    (hs : (seasonTitle ep).1 = none)
    (h : extract_episode_info env ep pid = .ok rec) :
    rec.season_number = 0 ∧ rec.episode_number = none := by
  obtain ⟨h1, h2, _, _⟩ := extract_episode_info_ok_fields env ep pid rec h
  constructor
  · rw [h1, hs]
    rfl
  · rw [h2]
    unfold codeEpisodeNumber epStep12
    rw [hpt]
    simp [hm, hth, hfn,
      show extract_episode_number_from_title "" = none from rfl,
      show extract_episode_number_from_text "" = (none, "") from rfl]

/-- C9 witness: a concrete markerless episode builds successfully with
the default season 0 and null episode number. -/
theorem c9_witness :
    ∃ rec, extract_episode_info envW epW9 "72" = Except.ok rec ∧
      rec.season_number = 0 ∧ rec.episode_number = none := by
  refine ⟨_, rfl, ?_⟩
  exact c9_default_numbers envW epW9 "72" _ (by decide) (by decide) (by decide)
    (by decide) (by decide) rfl


/-! ## C4: calendar arithmetic

The inverse civil computation (`civilFromShifted`) recovers the date
written by `civilShifted`.  The year-of-era recovery divides a
leap-corrected day count by 365; its correctness is reduced to a
monotonicity argument plus a finite check of the 400 years of an
era. -/

theorem doeAdj_step (x : Nat) : doeAdj x ≤ doeAdj (x + 1) := by
  have h36 : (36524 : Nat) ∣ 146096 := ⟨4, by norm_num⟩
  unfold doeAdj
  rw [Nat.succ_div x 1460, Nat.succ_div x 36524, Nat.succ_div x 146096]
  by_cases d3 : (146096 : Nat) ∣ x + 1
  · have d2 : (36524 : Nat) ∣ x + 1 := h36.trans d3
    rw [if_pos d3, if_pos d2]
    by_cases d1 : (1460 : Nat) ∣ x + 1
    · rw [if_pos d1]; omega
    · rw [if_neg d1]; omega
  · rw [if_neg d3]
    by_cases d2 : (36524 : Nat) ∣ x + 1 <;> by_cases d1 : (1460 : Nat) ∣ x + 1
    · rw [if_pos d2, if_pos d1]; omega
    · rw [if_pos d2, if_neg d1]; omega
    · rw [if_neg d2, if_pos d1]; omega
    · rw [if_neg d2, if_neg d1]; omega

theorem doeAdj_mono (a b : Nat) (h : a ≤ b) : doeAdj a ≤ doeAdj b := by
  induction h with
  | refl => exact le_refl _
  | step h2 ih => exact le_trans ih (doeAdj_step _)

set_option maxRecDepth 10000 in
theorem endpoint_check : ∀ yoe, yoe < 400 →
    (365 * yoe ≤ doeAdj (yoe * 365 + yoe / 4 - yoe / 100) ∧
     doeAdj (yoe * 365 + yoe / 4 - yoe / 100 + 364) < 365 * yoe + 365 ∧
     (leapB yoe = true →
       doeAdj (yoe * 365 + yoe / 4 - yoe / 100 + 365) < 365 * yoe + 365)) := by
  decide

theorem yoe_recover (yoe doy : Nat) (h1 : yoe ≤ 399)
    (h2 : doy ≤ 364 ∨ (doy = 365 ∧ leapB yoe = true)) :
    doeAdj (yoe * 365 + yoe / 4 - yoe / 100 + doy) / 365 = yoe := by
  have hend := endpoint_check yoe (by omega)
  have hlow : 365 * yoe ≤ doeAdj (yoe * 365 + yoe / 4 - yoe / 100 + doy) :=
    le_trans hend.1 (doeAdj_mono _ _ (by omega))
  rcases h2 with h2 | ⟨h2, hl⟩
  · have hhigh : doeAdj (yoe * 365 + yoe / 4 - yoe / 100 + doy) < 365 * yoe + 365 :=
      lt_of_le_of_lt (doeAdj_mono _ _ (by omega)) hend.2.1
    omega
  · have hhigh : doeAdj (yoe * 365 + yoe / 4 - yoe / 100 + doy) < 365 * yoe + 365 :=
      lt_of_le_of_lt (doeAdj_mono _ _ (by omega)) (hend.2.2 hl)
    omega

theorem civilFromShifted_eq_of (era yoe doy : Nat) (hyoe : yoe ≤ 399)
    (hdoy : doy ≤ 364 ∨ (doy = 365 ∧ leapB yoe = true)) :
    civilFromShifted (era * 146097 + (yoe * 365 + yoe / 4 - yoe / 100 + doy)) =
      ((if (if (5 * doy + 2) / 153 < 10 then (5 * doy + 2) / 153 + 3
            else (5 * doy + 2) / 153 - 9) ≤ 2
        then yoe + era * 400 + 1 else yoe + era * 400),
       (if (5 * doy + 2) / 153 < 10 then (5 * doy + 2) / 153 + 3
        else (5 * doy + 2) / 153 - 9),
       doy - (153 * ((5 * doy + 2) / 153) + 2) / 5 + 1) := by
  have hdoy365 : doy ≤ 365 := by rcases hdoy with h | ⟨h, _⟩ <;> omega
  have hera : (era * 146097 + (yoe * 365 + yoe / 4 - yoe / 100 + doy)) / 146097 = era := by
    omega
  have hdoe : (era * 146097 + (yoe * 365 + yoe / 4 - yoe / 100 + doy)) % 146097
      = yoe * 365 + yoe / 4 - yoe / 100 + doy := by omega
  have hyoerec := yoe_recover yoe doy hyoe hdoy
  have hdoyrec : yoe * 365 + yoe / 4 - yoe / 100 + doy
      - (365 * yoe + yoe / 4 - yoe / 100) = doy := by omega
  simp only [civilFromShifted, hera, hdoe, hyoerec, hdoyrec]

/-- The civil computations are mutually inverse on valid dates. -/
theorem civil_roundtrip (y m d : Nat) (hy1 : 1 ≤ y) (hy2 : y ≤ 9999)
    (hm1 : 1 ≤ m) (hm2 : m ≤ 12) (hd1 : 1 ≤ d) (hd2 : d ≤ daysInMonth y m) :
    civilFromShifted (civilShifted y m d) = (y, m, d) := by
  interval_cases m
  · simp [daysInMonth] at hd2
    have harg : civilShifted y 1 d = ((y - 1) / 400) * 146097 +
        (((y - 1) % 400) * 365 + ((y - 1) % 400) / 4 - ((y - 1) % 400) / 100
          + (306 + d - 1)) := by
      simp only [civilShifted]; norm_num
    rw [harg, civilFromShifted_eq_of ((y - 1) / 400) ((y - 1) % 400) (306 + d - 1)
      (by omega) (Or.inl (by omega))]
    have hmp : (5 * (306 + d - 1) + 2) / 153 = 10 := by omega
    rw [hmp]
    norm_num
    omega
  · simp [daysInMonth] at hd2
    have harg : civilShifted y 2 d = ((y - 1) / 400) * 146097 +
        (((y - 1) % 400) * 365 + ((y - 1) % 400) / 4 - ((y - 1) % 400) / 100
          + (337 + d - 1)) := by
      simp only [civilShifted]; norm_num
    have hdoy : 337 + d - 1 ≤ 364 ∨
        (337 + d - 1 = 365 ∧ leapB ((y - 1) % 400) = true) := by
      by_cases hlp : isLeapYear y = true
      · rw [hlp] at hd2
        simp at hd2
        by_cases h29 : d = 29
        · right
          refine ⟨by omega, ?_⟩
          simp only [isLeapYear, Bool.and_eq_true, beq_iff_eq, Bool.or_eq_true,
            bne_iff_ne, decide_eq_true_eq] at hlp
          simp only [leapB, Bool.and_eq_true, beq_iff_eq, Bool.or_eq_true, bne_iff_ne]
          omega
        · left; omega
      · simp only [Bool.not_eq_true] at hlp
        rw [hlp] at hd2
        simp at hd2
        left; omega
    rw [harg, civilFromShifted_eq_of ((y - 1) / 400) ((y - 1) % 400) (337 + d - 1)
      (by omega) hdoy]
    have hmp : (5 * (337 + d - 1) + 2) / 153 = 11 := by omega
    rw [hmp]
    norm_num
    omega
  · simp [daysInMonth] at hd2
    have harg : civilShifted y 3 d = (y / 400) * 146097 +
        ((y % 400) * 365 + (y % 400) / 4 - (y % 400) / 100 + (0 + d - 1)) := by
      simp only [civilShifted]; norm_num
    rw [harg, civilFromShifted_eq_of (y / 400) (y % 400) (0 + d - 1)
      (by omega) (Or.inl (by omega))]
    have hmp : (5 * (0 + d - 1) + 2) / 153 = 0 := by omega
    rw [hmp]
    norm_num
    omega
  · simp [daysInMonth] at hd2
    have harg : civilShifted y 4 d = (y / 400) * 146097 +
        ((y % 400) * 365 + (y % 400) / 4 - (y % 400) / 100 + (31 + d - 1)) := by
      simp only [civilShifted]; norm_num
    rw [harg, civilFromShifted_eq_of (y / 400) (y % 400) (31 + d - 1)
      (by omega) (Or.inl (by omega))]
    have hmp : (5 * (31 + d - 1) + 2) / 153 = 1 := by omega
    rw [hmp]
    norm_num
    omega
  · simp [daysInMonth] at hd2
    have harg : civilShifted y 5 d = (y / 400) * 146097 +
        ((y % 400) * 365 + (y % 400) / 4 - (y % 400) / 100 + (61 + d - 1)) := by
      simp only [civilShifted]; norm_num
    rw [harg, civilFromShifted_eq_of (y / 400) (y % 400) (61 + d - 1)
      (by omega) (Or.inl (by omega))]
    have hmp : (5 * (61 + d - 1) + 2) / 153 = 2 := by omega
    rw [hmp]
    norm_num
    omega
  · simp [daysInMonth] at hd2
    have harg : civilShifted y 6 d = (y / 400) * 146097 +
        ((y % 400) * 365 + (y % 400) / 4 - (y % 400) / 100 + (92 + d - 1)) := by
      simp only [civilShifted]; norm_num
    rw [harg, civilFromShifted_eq_of (y / 400) (y % 400) (92 + d - 1)
      (by omega) (Or.inl (by omega))]
    have hmp : (5 * (92 + d - 1) + 2) / 153 = 3 := by omega
    rw [hmp]
    norm_num
    omega
  · simp [daysInMonth] at hd2
    have harg : civilShifted y 7 d = (y / 400) * 146097 +
        ((y % 400) * 365 + (y % 400) / 4 - (y % 400) / 100 + (122 + d - 1)) := by
      simp only [civilShifted]; norm_num
    rw [harg, civilFromShifted_eq_of (y / 400) (y % 400) (122 + d - 1)
      (by omega) (Or.inl (by omega))]
    have hmp : (5 * (122 + d - 1) + 2) / 153 = 4 := by omega
    rw [hmp]
    norm_num
    omega
  · simp [daysInMonth] at hd2
    have harg : civilShifted y 8 d = (y / 400) * 146097 +
        ((y % 400) * 365 + (y % 400) / 4 - (y % 400) / 100 + (153 + d - 1)) := by
      simp only [civilShifted]; norm_num
    rw [harg, civilFromShifted_eq_of (y / 400) (y % 400) (153 + d - 1)
      (by omega) (Or.inl (by omega))]
    have hmp : (5 * (153 + d - 1) + 2) / 153 = 5 := by omega
    rw [hmp]
    norm_num
    omega
  · simp [daysInMonth] at hd2
    have harg : civilShifted y 9 d = (y / 400) * 146097 +
        ((y % 400) * 365 + (y % 400) / 4 - (y % 400) / 100 + (184 + d - 1)) := by
      simp only [civilShifted]; norm_num
    rw [harg, civilFromShifted_eq_of (y / 400) (y % 400) (184 + d - 1)
      (by omega) (Or.inl (by omega))]
    have hmp : (5 * (184 + d - 1) + 2) / 153 = 6 := by omega
    rw [hmp]
    norm_num
    omega
  · simp [daysInMonth] at hd2
    have harg : civilShifted y 10 d = (y / 400) * 146097 +
        ((y % 400) * 365 + (y % 400) / 4 - (y % 400) / 100 + (214 + d - 1)) := by
      simp only [civilShifted]; norm_num
    rw [harg, civilFromShifted_eq_of (y / 400) (y % 400) (214 + d - 1)
      (by omega) (Or.inl (by omega))]
    have hmp : (5 * (214 + d - 1) + 2) / 153 = 7 := by omega
    rw [hmp]
    norm_num
    omega
  · simp [daysInMonth] at hd2
    have harg : civilShifted y 11 d = (y / 400) * 146097 +
        ((y % 400) * 365 + (y % 400) / 4 - (y % 400) / 100 + (245 + d - 1)) := by
      simp only [civilShifted]; norm_num
    rw [harg, civilFromShifted_eq_of (y / 400) (y % 400) (245 + d - 1)
      (by omega) (Or.inl (by omega))]
    have hmp : (5 * (245 + d - 1) + 2) / 153 = 8 := by omega
    rw [hmp]
    norm_num
    omega
  · simp [daysInMonth] at hd2
    have harg : civilShifted y 12 d = (y / 400) * 146097 +
        ((y % 400) * 365 + (y % 400) / 4 - (y % 400) / 100 + (275 + d - 1)) := by
      simp only [civilShifted]; norm_num
    rw [harg, civilFromShifted_eq_of (y / 400) (y % 400) (275 + d - 1)
      (by omega) (Or.inl (by omega))]
    have hmp : (5 * (275 + d - 1) + 2) / 153 = 9 := by omega
    rw [hmp]
    norm_num
    omega

theorem char_digit_bounds (c : Char) (h : c.isDigit = true) :
    48 ≤ c.toNat ∧ c.toNat ≤ 57 := by
  simp [Char.isDigit] at h
  exact ⟨h.1, h.2⟩

theorem digitChar_of_digit (c : Char) (h : c.isDigit = true) :
    Nat.digitChar (c.toNat - 48) = c := by
  obtain ⟨hl, hr⟩ := char_digit_bounds c h
  have hc : c = Char.ofNat c.toNat := (Char.ofNat_toNat c).symm
  rw [hc]
  generalize c.toNat = n at hl hr
  interval_cases n <;> decide

theorem pad4_digits (c1 c2 c3 c4 : Char)
    (h1 : c1.isDigit = true) (h2 : c2.isDigit = true)
    (h3 : c3.isDigit = true) (h4 : c4.isDigit = true) :
    pad4 (digitsToNat [c1, c2, c3, c4]) = [c1, c2, c3, c4] := by
  obtain ⟨a1, b1⟩ := char_digit_bounds c1 h1
  obtain ⟨a2, b2⟩ := char_digit_bounds c2 h2
  obtain ⟨a3, b3⟩ := char_digit_bounds c3 h3
  obtain ⟨a4, b4⟩ := char_digit_bounds c4 h4
  have hval : digitsToNat [c1, c2, c3, c4] =
      ((c1.toNat - 48) * 10 + (c2.toNat - 48)) * 10 * 10 +
        (c3.toNat - 48) * 10 + (c4.toNat - 48) := by
    simp [digitsToNat]
    ring_nf
  simp only [pad4, hval]
  have e1 : (((c1.toNat - 48) * 10 + (c2.toNat - 48)) * 10 * 10 +
      (c3.toNat - 48) * 10 + (c4.toNat - 48)) / 1000 % 10 = c1.toNat - 48 := by omega
  have e2 : (((c1.toNat - 48) * 10 + (c2.toNat - 48)) * 10 * 10 +
      (c3.toNat - 48) * 10 + (c4.toNat - 48)) / 100 % 10 = c2.toNat - 48 := by omega
  have e3 : (((c1.toNat - 48) * 10 + (c2.toNat - 48)) * 10 * 10 +
      (c3.toNat - 48) * 10 + (c4.toNat - 48)) / 10 % 10 = c3.toNat - 48 := by omega
  have e4 : (((c1.toNat - 48) * 10 + (c2.toNat - 48)) * 10 * 10 +
      (c3.toNat - 48) * 10 + (c4.toNat - 48)) % 10 = c4.toNat - 48 := by omega
  rw [e1, e2, e3, e4, digitChar_of_digit c1 h1, digitChar_of_digit c2 h2,
    digitChar_of_digit c3 h3, digitChar_of_digit c4 h4]

theorem digitsToNat_four_lt (c1 c2 c3 c4 : Char)
    (h1 : c1.isDigit = true) (h2 : c2.isDigit = true)
    (h3 : c3.isDigit = true) (h4 : c4.isDigit = true) :
    digitsToNat [c1, c2, c3, c4] ≤ 9999 := by
  obtain ⟨a1, b1⟩ := char_digit_bounds c1 h1
  obtain ⟨a2, b2⟩ := char_digit_bounds c2 h2
  obtain ⟨a3, b3⟩ := char_digit_bounds c3 h3
  obtain ⟨a4, b4⟩ := char_digit_bounds c4 h4
  simp [digitsToNat]
  omega

theorem pySplitWsAux_chunk (t rest acc : List Char)
    (h : ∀ c ∈ t, c.isWhitespace = false) :
    pySplitWsAux (t ++ rest) acc = pySplitWsAux rest (t.reverse ++ acc) := by
  induction t generalizing acc with
  | nil => simp
  | cons c cs ih =>
    simp only [List.cons_append, pySplitWsAux]
    rw [h c (by simp)]
    simp only [Bool.false_eq_true, if_false]
    show pySplitWsAux (cs ++ rest) (c :: acc) = pySplitWsAux rest ((c :: cs).reverse ++ acc)
    rw [ih (c :: acc) (fun x hx => h x (by simp [hx]))]
    simp

theorem pySplitWsAux_space (rest acc : List Char) (h : acc ≠ []) :
    pySplitWsAux (' ' :: rest) acc
      = String.mk acc.reverse :: pySplitWsAux rest [] := by
  simp [pySplitWsAux, h]

theorem pySplitWs_three (t1 t2 t3 : List Char)
    (h1 : t1 ≠ []) (h2 : t2 ≠ []) (h3 : t3 ≠ [])
    (w1 : ∀ c ∈ t1, c.isWhitespace = false)
    (w2 : ∀ c ∈ t2, c.isWhitespace = false)
    (w3 : ∀ c ∈ t3, c.isWhitespace = false) :
    pySplitWs (String.mk (t1 ++ ' ' :: (t2 ++ ' ' :: t3)))
      = [String.mk t1, String.mk t2, String.mk t3] := by
  show pySplitWsAux (t1 ++ ' ' :: (t2 ++ ' ' :: t3)) [] = _
  rw [pySplitWsAux_chunk t1 _ [] w1,
    pySplitWsAux_space _ _ (by simp [h1]),
    pySplitWsAux_chunk t2 _ [] w2,
    pySplitWsAux_space _ _ (by simp [h2])]
  rw [show t3 = t3 ++ [] from (List.append_nil t3).symm,
    pySplitWsAux_chunk t3 [] [] w3]
  simp [pySplitWsAux, h3]

theorem lookup_mem_welsh {k v : String}
    (h : WELSH_MONTHS.lookup k = some v) : (k, v) ∈ WELSH_MONTHS := by
  have hgen : ∀ l : List (String × String), l.lookup k = some v → (k, v) ∈ l := by
    intro l
    induction l with
    | nil => intro h2; exact Option.noConfusion h2
    | cons p rest ih =>
      obtain ⟨a, b⟩ := p
      intro h2
      simp only [List.lookup] at h2
      by_cases hk : k = a
      · simp only [show (k == a) = true from beq_iff_eq.mpr hk] at h2
        injection h2 with h3
        subst h3
        subst hk
        exact List.mem_cons_self _ _
      · simp only [show (k == a) = false from beq_eq_false_iff_ne.mpr hk] at h2
        exact List.mem_cons_of_mem _ (ih h2)
  exact hgen WELSH_MONTHS h

theorem welsh_month_props : ∀ p ∈ WELSH_MONTHS,
    (p.1.toList ≠ [] ∧ ∀ c ∈ p.1.toList, c.isWhitespace = false) ∧
      (p.2 = "01" ∨ p.2 = "02" ∨ p.2 = "03" ∨ p.2 = "04" ∨ p.2 = "05" ∨ p.2 = "06" ∨
        p.2 = "07" ∨ p.2 = "08" ∨ p.2 = "09" ∨ p.2 = "10" ∨ p.2 = "11" ∨ p.2 = "12") := by
  decide

/-! ## C4: the parse/format roundtrip on valid Welsh dates -/

/-- Formatting the timestamp of a valid civil date renders that date
zero-padded as `YYYYMMDD`. -/
theorem format_civil (y m d : Nat) (hy1 : 1 ≤ y) (hy2 : y ≤ 9999)
    (hm1 : 1 ≤ m) (hm2 : m ≤ 12) (hd1 : 1 ≤ d) (hd2 : d ≤ daysInMonth y m) :
    format_date (civilDays y m d * 86400)
      = .ok (String.mk (pad4 y ++ pad2 m ++ pad2 d)) := by
  have h1 : Int.fdiv (civilDays y m d * 86400) 86400 = civilDays y m d :=
    Int.mul_fdiv_cancel _ (by norm_num)
  have hn : civilDays y m d + 719468 = ((civilShifted y m d : Nat) : Int) := by
    unfold civilDays; ring
  simp only [format_date, h1, hn]
  rw [if_neg (by exact not_lt.mpr (Int.natCast_nonneg _))]
  rw [Int.toNat_ofNat]
  rw [civil_roundtrip y m d hy1 hy2 hm1 hm2 hd1 hd2]
  rw [if_neg (by simp; omega)]

/-- Core roundtrip: on a three-token Welsh date whose month is in the
table and whose tokens parse to a valid calendar date, `parse_welsh_date`
with local offset 0 succeeds and `format_date` of the result renders the
year token, the mapped month and the zero-padded day. -/
theorem c4_general (c1 c2 c3 c4 : Char) (dTok : List Char) (wm mm : String)
    (mval dv yv : Nat)
    (hwm : WELSH_MONTHS.lookup wm = some mm)
    (hdw : ∀ c ∈ dTok, c.isWhitespace = false)
    (hdne : dTok ≠ [])
    (h1 : c1.isDigit = true) (h2 : c2.isDigit = true)
    (h3 : c3.isDigit = true) (h4 : c4.isDigit = true)
    (hyval : digitsToNat [c1, c2, c3, c4] = yv)
    (hy1 : 1 ≤ yv) (hd1 : 1 ≤ dv)
    (hmd : strpMonthDay (mm.toList ++ '-' :: dTok) = some (mval, dv, []))
    (hmv : digitsToNat mm.toList = mval)
    (hm1 : 1 ≤ mval) (hm2 : mval ≤ 12)
    (hpad2m : pad2 mval = mm.toList)
    (hdub : dv ≤ daysInMonth yv mval) :
    parse_welsh_date 0 (String.mk (dTok ++ ' ' :: (wm.toList ++ ' ' :: [c1, c2, c3, c4])))
        = .ok (civilDays yv mval dv * 86400) ∧
      format_date (civilDays yv mval dv * 86400)
        = .ok (String.mk ([c1, c2, c3, c4] ++ (mm.toList ++ pad2 dv))) := by
  have hmem := lookup_mem_welsh hwm
  have hprops := (welsh_month_props _ hmem).1
  have hy9999 : yv ≤ 9999 := hyval ▸ digitsToNat_four_lt c1 c2 c3 c4 h1 h2 h3 h4
  have hyws : ∀ c ∈ [c1, c2, c3, c4], c.isWhitespace = false := by
    intro c hc
    have hb := char_digit_bounds c (by
      simp only [List.mem_cons, List.not_mem_nil, or_false] at hc
      rcases hc with rfl | rfl | rfl | rfl
      · exact h1
      · exact h2
      · exact h3
      · exact h4)
    by_contra hw
    simp only [Bool.not_eq_false] at hw
    simp only [Char.isWhitespace] at hw
    rcases (by simpa using hw : ((c = ' ' ∨ c = '\t') ∨ c = '\x0d') ∨ c = '\n') with
      ((rfl | rfl) | rfl) | rfl <;> simp_all
  have hsplit := pySplitWs_three dTok wm.toList [c1, c2, c3, c4] hdne hprops.1
    (by simp) hdw hprops.2 hyws
  have hconv : convert_welsh_date
      (String.mk (dTok ++ ' ' :: (wm.toList ++ ' ' :: [c1, c2, c3, c4])))
      = .ok (String.mk [c1, c2, c3, c4] ++ "-" ++ mm ++ "-" ++ String.mk dTok) := by
    unfold convert_welsh_date
    rw [hsplit]
    show (match WELSH_MONTHS.lookup (String.mk wm.toList) with
      | some month => Except.ok (String.mk [c1, c2, c3, c4] ++ "-" ++ month ++ "-"
          ++ String.mk dTok)
      | none => Except.error (PyError.keyError (String.mk wm.toList))) = _
    rw [show String.mk wm.toList = wm from rfl, hwm]
  have hconvdata : (String.mk [c1, c2, c3, c4] ++ "-" ++ mm ++ "-" ++ String.mk dTok)
      = String.mk (c1 :: c2 :: c3 :: c4 :: '-' :: (mm.toList ++ '-' :: dTok)) := by
    apply String.ext
    simp [String.data_append]
  have hstrp : strptimeYmd (String.mk (c1 :: c2 :: c3 :: c4 :: '-'
      :: (mm.toList ++ '-' :: dTok))) = .ok (digitsToNat [c1, c2, c3, c4], mval, dv) := by
    have hshape : strptimeYmd (String.mk (c1 :: c2 :: c3 :: c4 :: '-'
        :: (mm.toList ++ '-' :: dTok)))
        = (if c1.isDigit ∧ c2.isDigit ∧ c3.isDigit ∧ c4.isDigit then
            match strpMonthDay (mm.toList ++ '-' :: dTok) with
            | some (m, d, []) => .ok (digitsToNat [c1, c2, c3, c4], m, d)
            | some (_, _, _ :: _) => .error (.valueError "unconverted data remains")
            | none => .error (.valueError "time data does not match format")
          else .error (.valueError "time data does not match format")) := rfl
    rw [hshape, if_pos ⟨h1, h2, h3, h4⟩, hmd]
  have hdc : datetimeCheck yv mval dv = .ok () := by
    unfold datetimeCheck
    rw [if_neg (by omega), if_neg (by omega)]
  have hparse : parse_welsh_date 0
      (String.mk (dTok ++ ' ' :: (wm.toList ++ ' ' :: [c1, c2, c3, c4])))
      = .ok (civilDays yv mval dv * 86400) := by
    unfold parse_welsh_date
    rw [hconv, exceptBind_ok, hconvdata, hstrp, exceptBind_ok, hyval]
    show (datetimeCheck yv mval dv >>= fun _ =>
      pure (civilDays yv mval dv * 86400 - 0)) = _
    rw [hdc, exceptBind_ok, Int.sub_zero]
    rfl
  refine ⟨hparse, ?_⟩
  have hfmt := format_civil yv mval dv hy1 hy9999 hm1 hm2 hd1 hdub
  rw [hfmt]
  have hpad4 : pad4 yv = [c1, c2, c3, c4] := by
    rw [← hyval]
    exact pad4_digits c1 c2 c3 c4 h1 h2 h3 h4
  rw [hpad4, hpad2m]
  simp

/-- Existential packaging of the roundtrip, in the shape of the claim:
the formatted output is 8 characters, its first four are the input year
token and its middle two are the table-mapped month. -/
theorem c4_assemble (c1 c2 c3 c4 : Char) (dTok : List Char) (wm mm : String)
    (mval dv yv : Nat)
    (hwm : WELSH_MONTHS.lookup wm = some mm)
    (hdw : ∀ c ∈ dTok, c.isWhitespace = false)
    (hdne : dTok ≠ [])
    (h1 : c1.isDigit = true) (h2 : c2.isDigit = true)
    (h3 : c3.isDigit = true) (h4 : c4.isDigit = true)
    (hyval : digitsToNat [c1, c2, c3, c4] = yv)
    (hy1 : 1 ≤ yv) (hd1 : 1 ≤ dv)
    (hmd : strpMonthDay (mm.toList ++ '-' :: dTok) = some (mval, dv, []))
    (hmv : digitsToNat mm.toList = mval)
    (hm1 : 1 ≤ mval) (hm2 : mval ≤ 12)
    (hpad2m : pad2 mval = mm.toList)
    (hdub : dv ≤ daysInMonth yv mval) :
    ∃ ts out,
      parse_welsh_date 0 (String.mk (dTok ++ ' ' :: (wm.toList ++ ' ' :: [c1, c2, c3, c4])))
          = .ok ts ∧
        format_date ts = .ok out ∧
        out.length = 8 ∧
        out.toList.take 4 = [c1, c2, c3, c4] ∧
        (out.toList.drop 4).take 2 = mm.toList := by
  obtain ⟨hp, hf⟩ := c4_general c1 c2 c3 c4 dTok wm mm mval dv yv hwm hdw hdne
    h1 h2 h3 h4 hyval hy1 hd1 hmd hmv hm1 hm2 hpad2m hdub
  refine ⟨_, _, hp, hf, ?_, ?_, ?_⟩
  · show (String.mk ([c1, c2, c3, c4] ++ (mm.toList ++ pad2 dv))).length = 8
    rw [← hpad2m]
    simp [pad2, String.length]
  · rfl
  · show (List.drop 4 ([c1, c2, c3, c4] ++ (mm.toList ++ pad2 dv))).take 2 = mm.toList
    rw [← hpad2m]
    rfl

/-- C4 (counterexample): the claim quantifies over all valid Welsh date
strings, but `parse_welsh_date` goes through `datetime.timestamp()`,
which interprets the naive `strptime` result in the process-local
timezone.  With a local UTC offset of +3600 s, `"1 Ionawr 2021"` parses
to 1609455600, which formats back to `"20201231"`: its first four
characters are not the input year `"2021"`. -/
theorem c4_counterexample :
    parse_welsh_date 3600 "1 Ionawr 2021" = .ok 1609455600 ∧
      format_date 1609455600 = .ok "20201231" ∧
      ¬ ("20201231".toList.take 4 = ['2', '0', '2', '1']) := by
  exact ⟨rfl, rfl, by decide⟩

/-- C4 (amended): with local UTC offset 0, for every Welsh date string
`"<day> <month> <year>"` whose day token is a `%d`-parsable run of
non-whitespace characters, whose month is in `WELSH_MONTHS`, whose year
token is four digits with value at least 1, and whose day fits the month
(a valid calendar date), parsing then formatting yields an 8-character
`YYYYMMDD` string whose first four characters equal the input year token
and whose middle two equal the table-mapped month. -/
theorem c4_local_roundtrip (c1 c2 c3 c4 : Char) (dTok : List Char) (wm mm : String)
    (dv yv : Nat)
    (hwm : WELSH_MONTHS.lookup wm = some mm)
    (hdw : ∀ c ∈ dTok, c.isWhitespace = false)
    (hdp : strpDay dTok = some (dv, []))
    (h1 : c1.isDigit = true) (h2 : c2.isDigit = true)
    (h3 : c3.isDigit = true) (h4 : c4.isDigit = true)
    (hyval : digitsToNat [c1, c2, c3, c4] = yv)
    (hy1 : 1 ≤ yv) (hd1 : 1 ≤ dv)
    (hdub : dv ≤ daysInMonth yv (digitsToNat mm.toList)) :
    ∃ ts out,
      parse_welsh_date 0 (String.mk (dTok ++ ' ' :: (wm.toList ++ ' ' :: [c1, c2, c3, c4])))
          = .ok ts ∧
        format_date ts = .ok out ∧
        out.length = 8 ∧
        out.toList.take 4 = [c1, c2, c3, c4] ∧
        (out.toList.drop 4).take 2 = mm.toList := by
  have hdne : dTok ≠ [] := by
    intro h
    rw [h] at hdp
    exact Option.noConfusion hdp
  rcases (welsh_month_props _ (lookup_mem_welsh hwm)).2 with
    rfl | rfl | rfl | rfl | rfl | rfl | rfl | rfl | rfl | rfl | rfl | rfl
  · exact c4_assemble c1 c2 c3 c4 dTok wm "01" 1 dv yv hwm hdw hdne h1 h2 h3 h4
      hyval hy1 hd1
      (by show strpMonthDay ('0' :: '1' :: '-' :: dTok) = some (1, dv, [])
          simp [strpMonthDay, hdp])
      (by decide) (by decide) (by decide) (by decide) hdub
  · exact c4_assemble c1 c2 c3 c4 dTok wm "02" 2 dv yv hwm hdw hdne h1 h2 h3 h4
      hyval hy1 hd1
      (by show strpMonthDay ('0' :: '2' :: '-' :: dTok) = some (2, dv, [])
          simp [strpMonthDay, hdp])
      (by decide) (by decide) (by decide) (by decide) hdub
  · exact c4_assemble c1 c2 c3 c4 dTok wm "03" 3 dv yv hwm hdw hdne h1 h2 h3 h4
      hyval hy1 hd1
      (by show strpMonthDay ('0' :: '3' :: '-' :: dTok) = some (3, dv, [])
          simp [strpMonthDay, hdp])
      (by decide) (by decide) (by decide) (by decide) hdub
  · exact c4_assemble c1 c2 c3 c4 dTok wm "04" 4 dv yv hwm hdw hdne h1 h2 h3 h4
      hyval hy1 hd1
      (by show strpMonthDay ('0' :: '4' :: '-' :: dTok) = some (4, dv, [])
          simp [strpMonthDay, hdp])
      (by decide) (by decide) (by decide) (by decide) hdub
  · exact c4_assemble c1 c2 c3 c4 dTok wm "05" 5 dv yv hwm hdw hdne h1 h2 h3 h4
      hyval hy1 hd1
      (by show strpMonthDay ('0' :: '5' :: '-' :: dTok) = some (5, dv, [])
          simp [strpMonthDay, hdp])
      (by decide) (by decide) (by decide) (by decide) hdub
  · exact c4_assemble c1 c2 c3 c4 dTok wm "06" 6 dv yv hwm hdw hdne h1 h2 h3 h4
      hyval hy1 hd1
      (by show strpMonthDay ('0' :: '6' :: '-' :: dTok) = some (6, dv, [])
          simp [strpMonthDay, hdp])
      (by decide) (by decide) (by decide) (by decide) hdub
  · exact c4_assemble c1 c2 c3 c4 dTok wm "07" 7 dv yv hwm hdw hdne h1 h2 h3 h4
      hyval hy1 hd1
      (by show strpMonthDay ('0' :: '7' :: '-' :: dTok) = some (7, dv, [])
          simp [strpMonthDay, hdp])
      (by decide) (by decide) (by decide) (by decide) hdub
  · exact c4_assemble c1 c2 c3 c4 dTok wm "08" 8 dv yv hwm hdw hdne h1 h2 h3 h4
      hyval hy1 hd1
      (by show strpMonthDay ('0' :: '8' :: '-' :: dTok) = some (8, dv, [])
          simp [strpMonthDay, hdp])
      (by decide) (by decide) (by decide) (by decide) hdub
  · exact c4_assemble c1 c2 c3 c4 dTok wm "09" 9 dv yv hwm hdw hdne h1 h2 h3 h4
      hyval hy1 hd1
      (by show strpMonthDay ('0' :: '9' :: '-' :: dTok) = some (9, dv, [])
          simp [strpMonthDay, hdp])
      (by decide) (by decide) (by decide) (by decide) hdub
  · exact c4_assemble c1 c2 c3 c4 dTok wm "10" 10 dv yv hwm hdw hdne h1 h2 h3 h4
      hyval hy1 hd1
      (by show strpMonthDay ('1' :: '0' :: '-' :: dTok) = some (10, dv, [])
          simp [strpMonthDay, hdp])
      (by decide) (by decide) (by decide) (by decide) hdub
  · exact c4_assemble c1 c2 c3 c4 dTok wm "11" 11 dv yv hwm hdw hdne h1 h2 h3 h4
      hyval hy1 hd1
      (by show strpMonthDay ('1' :: '1' :: '-' :: dTok) = some (11, dv, [])
          simp [strpMonthDay, hdp])
      (by decide) (by decide) (by decide) (by decide) hdub
  · exact c4_assemble c1 c2 c3 c4 dTok wm "12" 12 dv yv hwm hdw hdne h1 h2 h3 h4
      hyval hy1 hd1
      (by show strpMonthDay ('1' :: '2' :: '-' :: dTok) = some (12, dv, [])
          simp [strpMonthDay, hdp])
      (by decide) (by decide) (by decide) (by decide) hdub

theorem c4_witness : ∃ ts out,
    parse_welsh_date 0
        (String.mk (['1', '5'] ++ ' ' :: ("Ionawr".toList ++ ' ' :: ['2', '0', '2', '1'])))
        = .ok ts ∧
      format_date ts = .ok out ∧
      out.length = 8 ∧
      out.toList.take 4 = ['2', '0', '2', '1'] ∧
      (out.toList.drop 4).take 2 = "01".toList :=
  c4_local_roundtrip '2' '0' '2' '1' ['1', '5'] "Ionawr" "01" 15 2021
    (by decide) (by decide) (by decide) (by decide) (by decide) (by decide) (by decide)
    (by decide) (by decide) (by decide) (by decide)

end S4C
